import Mathlib

/-!
Shallow embedding of the audioEngine vocal-processing core, together with
theorems settling the frozen claims C1..C10 about it.

Modelling conventions, used throughout:

* JS `number` arithmetic is modelled over `ℚ`.  The transcendental library
  functions (`Math.exp`, `Math.pow(10,·)`, `Math.log10`, `Math.log2`) have no
  exact rational counterpart; every definition that calls one receives a
  `FloatOps` record holding those functions, and each theorem states the
  hypotheses on them (monotonicity, `pow10 0 = 1`, coefficient ranges …) that
  the real functions satisfy.  Purely rational code is embedded directly.
* `Float32Array` buffers are modelled as `List ℚ`; out-of-bounds typed-array
  writes are no-ops, reads default to 0 where the source can only reach
  in-bounds indices.
* Stateful per-sample loops become structural recursion threading the state.
* Code that throws (`decodeWav`) returns an `Option`.
-/

namespace AudioEngine

/-- The transcendental JS math functions used by the embedded code, supplied
as an abstract record of rational functions. -/
structure FloatOps where
  exp : ℚ → ℚ
  pow10 : ℚ → ℚ
  log10 : ℚ → ℚ
  log2 : ℚ → ℚ

/-- JS `Math.round`: round half toward +∞. -/
def jsRound (x : ℚ) : ℤ := ⌊x + 1 / 2⌋

/-- JS truncation toward zero (the integer part used by the `%` operator). -/
def jsTrunc (x : ℚ) : ℤ := if 0 ≤ x then ⌊x⌋ else -⌊-x⌋

/-- JS `%` remainder (sign of the dividend, truncating division). -/
def jsMod (a b : ℚ) : ℚ := a - b * (jsTrunc (a / b) : ℚ)

/-- JS `x || d` applied to an optional numeric lookup: `undefined`, and the
falsy number `0`, both fall back to the default. -/
def jsOrDefault (x : Option ℚ) (d : ℚ) : ℚ :=
  match x with
  | none => d
  | some v => if v = 0 then d else v

/-! ## Worker DSP helpers (`part_000`)

`applySimpleAutotune(input, strength, _sampleRate)`: smoothing blend applied
when `strength ≥ 10`, with blend amount `min(strength/100, 0.5)`. -/

/-- The smoothing loop body of `applySimpleAutotune`, as a function of the
already-computed `blendAmount`. -/
def autotuneSmooth (input : List ℚ) (blendAmount : ℚ) : List ℚ :=
  (List.range input.length).map fun i =>
    if 0 < i ∧ i < input.length - 1 then
      input.getD i 0 * (1 - blendAmount * (1 / 10)) +
        ((input.getD (i - 1) 0 + input.getD (i + 1) 0) / 2) * blendAmount * (1 / 10)
    else
      input.getD i 0

/-- `applySimpleAutotune(input, strength, _sampleRate)` from the worker:
returns the input unchanged when `strength < 10`, otherwise applies the
smoothing with `blendAmount = min(strength/100, 0.5)`. -/
def applySimpleAutotune (input : List ℚ) (strength : ℚ) (_sampleRate : ℚ) : List ℚ :=
  if strength < 10 then input
  else autotuneSmooth input (min (strength / 100) (1 / 2))

/-- Step 6 of `processVocalChainWithAI` (lines 1073–1078): the autotune stage.
The source reads

  const autotuneAmount = userMacros.autotuneStrength / 100;
  if (autotuneAmount > 0.05) {
      audio = applySimpleAutotune(audio, sampleRate, autotuneAmount);
  }

so the sample rate is passed in `applySimpleAutotune`'s `strength` slot and
the macro-derived amount in its `_sampleRate` slot. -/
def vocalChainAutotuneStage (aud : List ℚ) (sampleRate : ℚ) (autotuneStrength : ℚ) :
    List ℚ :=
  let autotuneAmount := autotuneStrength / 100
  if autotuneAmount > 5 / 100 then applySimpleAutotune aud sampleRate autotuneAmount
  else aud

/-! `applyLimiter(audio, ceiling)` from the worker (lines 708–731): peak-hold
envelope with multiplicative release `0.9995`, gain `ceiling/envelope` once
the envelope exceeds the ceiling. -/

/-- The per-sample loop of `applyLimiter`, threading the envelope. -/
def applyLimiterGo (ceiling : ℚ) : ℚ → List ℚ → List ℚ
  | _, [] => []
  | envelope, x :: xs =>
    let inputAbs := |x|
    let envelope' := if inputAbs > envelope then inputAbs else envelope * (9995 / 10000)
    let gain := if envelope' > ceiling then ceiling / envelope' else 1
    x * gain :: applyLimiterGo ceiling envelope' xs

/-- `applyLimiter` with initial envelope 0. -/
def applyLimiter (aud : List ℚ) (ceiling : ℚ) : List ℚ :=
  applyLimiterGo ceiling 0 aud

/-! ## `Limiter` plugin (`part_008`, `Limiter.process`)

Parameters are passed explicitly (the values `process` reads from the
parameter map); the DSP state is threaded through the loop.  `dbToGain` is
`pow10 (db/20)`. -/

/-- JS `Math.sign`. -/
def jsSign (x : ℚ) : ℚ := if 0 < x then 1 else if x < 0 then -1 else 0

/-- Mutable state of `Limiter.process`: envelope, smoothed gain, and the
lookahead circular buffer with its write index. -/
structure LimiterState where
  envelope : ℚ
  currentGain : ℚ
  lookAheadBuffer : List ℚ
  lookAheadIndex : ℕ

/-- One iteration of the `Limiter.process` loop (lines 125–170), reproducing
envelope update, target-gain computation, gain smoothing, lookahead delay,
gain application and the final hard ceiling clamp. -/
def limiterStep (thresholdLinear ceilingLinear makeupGain attackCoef releaseCoef : ℚ)
    (lookAheadSamples : ℕ) (st : LimiterState) (x : ℚ) : LimiterState × ℚ :=
  let sample0 := x * makeupGain
  let absLevel := |sample0|
  let envelope' :=
    if absLevel > st.envelope then attackCoef * st.envelope + (1 - attackCoef) * absLevel
    else releaseCoef * st.envelope + (1 - releaseCoef) * absLevel
  let targetGain := if envelope' > thresholdLinear then thresholdLinear / envelope' else 1
  let currentGain' := releaseCoef * st.currentGain + (1 - releaseCoef) * targetGain
  let (sample1, buf', idx') :=
    if 0 < lookAheadSamples then
      (st.lookAheadBuffer.getD st.lookAheadIndex 0,
        st.lookAheadBuffer.set st.lookAheadIndex sample0,
        (st.lookAheadIndex + 1) % lookAheadSamples)
    else (sample0, st.lookAheadBuffer, st.lookAheadIndex)
  let sample2 := sample1 * currentGain'
  let sample3 :=
    if |sample2| > ceilingLinear then jsSign sample2 * ceilingLinear else sample2
  (⟨envelope', currentGain', buf', idx'⟩, sample3)

/-- The `Limiter.process` loop over a whole buffer. -/
def limiterProcessGo (thresholdLinear ceilingLinear makeupGain attackCoef releaseCoef : ℚ)
    (lookAheadSamples : ℕ) : LimiterState → List ℚ → List ℚ
  | _, [] => []
  | st, x :: xs =>
    let (st', y) :=
      limiterStep thresholdLinear ceilingLinear makeupGain attackCoef releaseCoef
        lookAheadSamples st x
    y :: limiterProcessGo thresholdLinear ceilingLinear makeupGain attackCoef releaseCoef
      lookAheadSamples st' xs

/-- `Limiter.process` for a non-bypassed limiter, from freshly initialized
state (zeroed envelope/lookahead, unity gain).  `threshold`, `ceiling`,
`release`, `lookAhead` and `autoGain` are the parameter-map values read at
the top of `process`; coefficients and linear levels are derived through the
`FloatOps` record exactly as in the source. -/
def limiterProcess (F : FloatOps) (threshold ceiling release lookAheadMs : ℚ)
    (autoGain : Bool) (sampleRate : ℚ) (input : List ℚ) : List ℚ :=
  let lookAheadSamples := (⌊sampleRate * lookAheadMs / 1000⌋).toNat
  let thresholdLinear := F.pow10 (threshold / 20)
  let ceilingLinear := F.pow10 (ceiling / 20)
  let makeupGain := if autoGain then F.pow10 (-threshold / 20) else 1
  let releaseCoef := F.exp (-1 / (sampleRate * release / 1000))
  let attackCoef := F.exp (-1 / (sampleRate * (1 / 1000)))
  limiterProcessGo thresholdLinear ceilingLinear makeupGain attackCoef releaseCoef
    lookAheadSamples ⟨0, 1, List.replicate lookAheadSamples 0, 0⟩ input

/-! ## `SimpleCompressor` (worker, `part_000` lines 485–532) -/

/-- The `SimpleCompressor.process` loop: envelope follower with separate
attack/release one-pole coefficients, hard-knee gain computed in dB once the
envelope exceeds the linear threshold. -/
def simpleCompressorGo (F : FloatOps) (thresholdLinear ratioP attackCoef releaseCoef : ℚ) :
    ℚ → List ℚ → List ℚ
  | _, [] => []
  | envelope, x :: xs =>
    let inputLevel := |x|
    let envelope' :=
      if inputLevel > envelope then attackCoef * envelope + (1 - attackCoef) * inputLevel
      else releaseCoef * envelope + (1 - releaseCoef) * inputLevel
    let gain :=
      if envelope' > thresholdLinear then
        let overDb := 20 * F.log10 (envelope' / thresholdLinear)
        let reducedDb := overDb * (1 - 1 / ratioP)
        F.pow10 (-reducedDb / 20)
      else 1
    x * gain :: simpleCompressorGo F thresholdLinear ratioP attackCoef releaseCoef envelope' xs

/-- `new SimpleCompressor(threshold, ratio, attackMs, releaseMs, sampleRate)`
followed by `process(input)` on the fresh (zero-envelope) instance. -/
def simpleCompressorProcess (F : FloatOps) (threshold ratioP attackMs releaseMs sampleRate : ℚ)
    (input : List ℚ) : List ℚ :=
  let attackCoef := F.exp (-1 / (sampleRate * attackMs / 1000))
  let releaseCoef := F.exp (-1 / (sampleRate * releaseMs / 1000))
  let thresholdLinear := F.pow10 (threshold / 20)
  simpleCompressorGo F thresholdLinear ratioP attackCoef releaseCoef 0 input

/-! ## `Compressor` plugin (`src/plugins/dynamics/Compressor.ts`)

`process` additionally records the per-sample `gainDb` (the quantity the
source stores in `this.gainReduction = -gainDb` each iteration); the loop
below returns `(output sample, gainDb)` pairs so the claim about `gainDb`
can be stated.  `gainToDb x = 20*log10(max x 1e-10)`, `dbToGain x =
pow10 (x/20)`. -/

/-- The soft-knee gain computer of `Compressor.process` (lines 129–141), as
a function of the envelope level in dB: zero below the knee, quadratic
interpolation inside it, `(threshold - level)·(1 - 1/ratio)` above. -/
def compressorGainDb (threshold ratioP knee envelopeDb : ℚ) : ℚ :=
  if envelopeDb < threshold - knee / 2 then 0
  else if envelopeDb > threshold + knee / 2 then
    (threshold - envelopeDb) * (1 - 1 / ratioP)
  else
    (1 / ratioP - 1) * (envelopeDb - threshold + knee / 2) ^ 2 / (2 * knee)

/-- Soft-knee gain computer plus envelope follower of `Compressor.process`
(lines 119–149). -/
def compressorGo (F : FloatOps) (threshold ratioP attackCoef releaseCoef knee makeupGain : ℚ) :
    ℚ → List ℚ → List (ℚ × ℚ)
  | _, [] => []
  | envelope, x :: xs =>
    let inputLevel := |x|
    let coef := if inputLevel > envelope then attackCoef else releaseCoef
    let envelope' := coef * envelope + (1 - coef) * inputLevel
    let envelopeDb := 20 * F.log10 (max envelope' (1 / 10000000000))
    let gainDb := compressorGainDb threshold ratioP knee envelopeDb
    let gain := F.pow10 (gainDb / 20) * makeupGain
    (x * gain, gainDb) ::
      compressorGo F threshold ratioP attackCoef releaseCoef knee makeupGain envelope' xs

/-- `Compressor.process` for a non-bypassed compressor from zero envelope;
parameters are the parameter-map values read at the top of `process`. -/
def compressorProcess (F : FloatOps) (threshold ratioP attack release knee makeupGainDb : ℚ)
    (sampleRate : ℚ) (input : List ℚ) : List (ℚ × ℚ) :=
  let makeupGain := F.pow10 (makeupGainDb / 20)
  let attackCoef := F.exp (-1 / (sampleRate * attack / 1000))
  let releaseCoef := F.exp (-1 / (sampleRate * release / 1000))
  compressorGo F threshold ratioP attackCoef releaseCoef knee makeupGain 0 input

/-! ## Worker parameter optimizer (`part_000`, `WorkerParameterOptimizer.optimize`) -/

/-- `VocalAnalysis` (worker interface, numeric fields). -/
structure VocalAnalysis where
  fundamentalFreq : ℚ
  detectedKey : String
  detectedScale : String
  avgPitchDeviation : ℚ
  rmsLevel : ℚ
  peakLevel : ℚ
  dynamicRange : ℚ
  sibilanceLevel : ℚ
  mudLevel : ℚ
  brightnessLevel : ℚ
  signalToNoiseRatio : ℚ
  needsNoiseReduction : Bool
  phoneRecordingConfidence : ℚ
deriving DecidableEq

/-- `ReferenceAnalysis` (worker interface). -/
structure ReferenceAnalysis where
  spectralCurve : List ℚ
  estimatedReverbDecay : ℚ
  estimatedReverbWet : ℚ
  overallLufs : ℚ
  vocalBandEnergy : ℚ
deriving DecidableEq

/-- Reverb type classification. -/
inductive ReverbKind | plate | room | hall
deriving DecidableEq

/-- The user macros read by the worker optimizer. -/
structure UserMacroState where
  autotuneStrength : ℚ
  reverbAmount : ℚ
  vocalLoudness : ℚ
  polishAmount : ℚ
deriving DecidableEq

/-- `OptimizedParameters` (worker interface). -/
structure OptimizedParameters where
  inputGainDb : ℚ
  highPassFreq : ℚ
  deEsserThreshold : ℚ
  deEsserFrequency : ℚ
  compThreshold : ℚ
  compRat : ℚ
  mudCut : ℚ
  presenceBoost : ℚ
  airBoost : ℚ
  saturationDrive : ℚ
  saturationMix : ℚ
  reverbDecay : ℚ
  reverbWet : ℚ
  reverbType : ReverbKind
deriving DecidableEq

/-- `WorkerParameterOptimizer.optimize` (lines 1819–1922), translated rule by
rule.  All arithmetic in the source is rational, so no `FloatOps` is needed.
The `compRat` field embeds the source's `compRatio`. -/
def workerOptimize (vocal : VocalAnalysis) (ref : Option ReferenceAnalysis)
    (userMacros : UserMacroState) : OptimizedParameters :=
  let targetRms : ℚ := -18
  let inputGainDb0 := targetRms - vocal.rmsLevel
  let inputGainDb :=
    if vocal.peakLevel + inputGainDb0 > -6 then -6 - vocal.peakLevel else inputGainDb0
  let highPassFreq := max 60 (min 150 (vocal.fundamentalFreq * (7 / 10)))
  let deEsserThreshold : ℚ :=
    if vocal.sibilanceLevel > -6 then -25
    else if vocal.sibilanceLevel < -15 then -15 else -20
  let deEsserFrequency := 6000 + vocal.fundamentalFreq * 5
  let compThreshold : ℚ :=
    if vocal.dynamicRange > 20 then -20 else if vocal.dynamicRange < 10 then -15 else -18
  let compRat : ℚ :=
    if vocal.dynamicRange > 20 then 3 else if vocal.dynamicRange < 10 then 2 else 5 / 2
  let mudCut : ℚ :=
    if vocal.mudLevel > -20 then min (-3) (-(vocal.mudLevel + 20) * (3 / 10)) else 0
  let polishFactor := userMacros.polishAmount / 100
  let presenceBoost0 := 2 * polishFactor
  let airBoost0 := (3 / 2) * polishFactor
  let presenceBoost :=
    match ref with
    | none => presenceBoost0
    | some r =>
      let refBinSize := 44100 / ((r.spectralCurve.length : ℚ) * 2)
      let presenceBin := (⌊(4000 : ℚ) / refBinSize⌋).toNat
      let refPresence := jsOrDefault (r.spectralCurve.get? presenceBin) (-30)
      max (-2) (min 4 (presenceBoost0 + (refPresence + 30) * (1 / 10)))
  let airBoost :=
    match ref with
    | none => airBoost0
    | some r =>
      let refBinSize := 44100 / ((r.spectralCurve.length : ℚ) * 2)
      let airBin := (⌊(12000 : ℚ) / refBinSize⌋).toNat
      let refAir := jsOrDefault (r.spectralCurve.get? airBin) (-40)
      max (-1) (min 3 (airBoost0 + (refAir + 40) * (5 / 100)))
  let saturationDrive : ℚ := if vocal.phoneRecordingConfidence > 7 / 10 then 10 else 5
  let saturationMix0 : ℚ := if vocal.phoneRecordingConfidence > 7 / 10 then 15 else 8
  let saturationMix := saturationMix0 * polishFactor
  let userReverbWet := userMacros.reverbAmount / 100 * (4 / 10)
  let reverbDecay0 : ℚ := 9 / 5
  let reverbDecay :=
    match ref with
    | none => reverbDecay0
    | some r => r.estimatedReverbDecay * (1 / 2) + reverbDecay0 * (1 / 2)
  let reverbWet :=
    match ref with
    | none => userReverbWet
    | some r => r.estimatedReverbWet * (3 / 10) + userReverbWet * (7 / 10)
  let reverbType :=
    if reverbDecay > 5 / 2 then ReverbKind.hall
    else if reverbDecay > 3 / 2 then ReverbKind.room
    else ReverbKind.plate
  { inputGainDb := inputGainDb
    highPassFreq := highPassFreq
    deEsserThreshold := deEsserThreshold
    deEsserFrequency := deEsserFrequency
    compThreshold := compThreshold
    compRat := compRat
    mudCut := mudCut
    presenceBoost := presenceBoost
    airBoost := airBoost
    saturationDrive := saturationDrive
    saturationMix := saturationMix
    reverbDecay := reverbDecay
    reverbWet := reverbWet
    reverbType := reverbType }

/-! ## Browser optimizer (`ParameterOptimizer.calculateSubtractiveEQ`) -/

/-- An EQ band produced by the browser optimizer. -/
structure EQBand where
  frequency : ℚ
  gain : ℚ
  q : ℚ
  enabled : Bool
deriving DecidableEq

/-- `SubtractiveEQParams` returned by `calculateSubtractiveEQ`. -/
structure SubtractiveEQParams where
  highPassFreq : ℚ
  highPassSlope : ℚ
  bands : List EQBand
deriving DecidableEq

/-- `ParameterOptimizer.analyzeFrequencyBand` (browser): average of the
spectrum entries whose bin index lies in the band, `-60` when empty. -/
def analyzeFrequencyBand (spectrum : List ℚ) (lowFreq highFreq sampleRate : ℚ) : ℚ :=
  let binSize := sampleRate / ((spectrum.length : ℚ) * 2)
  let lowBin := (⌊lowFreq / binSize⌋).toNat
  let highBin := (⌈highFreq / binSize⌉).toNat
  let idxs := (List.range spectrum.length).filter fun i => lowBin ≤ i ∧ i ≤ highBin
  if idxs.length = 0 then -60
  else (idxs.map fun i => spectrum.getD i 0).sum / (idxs.length : ℚ)

/-- The browser `VocalAnalysis` fields consumed by `calculateSubtractiveEQ`. -/
structure BrowserVocalAnalysis where
  fundamentalFreq : ℚ
  spectralProfile : List ℚ
deriving DecidableEq

/-- `ParameterOptimizer.calculateSubtractiveEQ` (Compressor.ts lines 510–553):
HPF at `clamp(50, 150, fundamental*0.7)` — the browser optimizer clamps to a
50 Hz floor — with adaptive slope and optional mud/harshness cut bands. -/
def calculateSubtractiveEQ (vocal : BrowserVocalAnalysis) : SubtractiveEQParams :=
  let fundamental := vocal.fundamentalFreq
  let highPassFreq := max 50 (min 150 (fundamental * (7 / 10)))
  let highPassSlope : ℚ := if fundamental < 120 then 24 else 18
  let mudEnergy := analyzeFrequencyBand vocal.spectralProfile 200 350 44100
  let bands0 : List EQBand :=
    if mudEnergy > -12 then
      [{ frequency := 280, gain := max (-4) (-mudEnergy * (1 / 2)), q := 3 / 2,
         enabled := true }]
    else []
  let harshEnergy := analyzeFrequencyBand vocal.spectralProfile 2500 4500 44100
  let bands :=
    if harshEnergy > -6 then
      bands0 ++ [{ frequency := 3200, gain := -2, q := 2, enabled := true }]
    else bands0
  { highPassFreq := highPassFreq, highPassSlope := highPassSlope, bands := bands }

/-! ## `AutoTune` scale snapping (`part_005`) -/

/-- The scale-interval table of `updateScaleNotes`; an unknown scale id falls
back to chromatic via `||`. -/
def scaleIntervals (scale : ℤ) : List ℤ :=
  if scale = 0 then [0, 2, 4, 5, 7, 9, 11]
  else if scale = 1 then [0, 2, 3, 5, 7, 8, 10]
  else if scale = 2 then [0, 2, 4, 7, 9]
  else if scale = 3 then [0, 3, 5, 6, 7, 10]
  else [0, 1, 2, 3, 4, 5, 6, 7, 8, 9, 10, 11]

/-- `updateScaleNotes`: the pitch-class set of the active key/scale, in the
JS `Set` insertion order.  `key` is the rounded, range-clamped `key`
parameter, so `0 ≤ key ≤ 11` in the running system; `%` here is JS `%` on
those nonnegative integers. -/
def updateScaleNotesList (key scale : ℤ) : List ℤ :=
  (scaleIntervals scale).map fun interval => (key + interval) % 12

/-- The loop of `snapToScale`: track the nearest scale note and the least
circular distance seen so far (initially the fractional input pitch class at
distance 12). -/
def snapGo (noteInOctave : ℚ) : List ℤ → ℚ × ℚ → ℚ × ℚ
  | [], acc => acc
  | s :: rest, (nearestNote, minDistance) =>
    let dist1 := |(s : ℚ) - noteInOctave|
    let dist2 := 12 - dist1
    let distance := min dist1 dist2
    if distance < minDistance then snapGo noteInOctave rest ((s : ℚ), distance)
    else snapGo noteInOctave rest (nearestNote, minDistance)

/-- `((midiNote % 12) + 12) % 12`, the (possibly fractional) pitch class
computed at the top of `snapToScale`. -/
def jsNoteInOctave (midiNote : ℚ) : ℚ := jsMod (jsMod midiNote 12 + 12) 12

/-- `AutoTune.snapToScale(midiNote)` (lines 255–276): split the (possibly
fractional) MIDI note into octave and pitch class, pick the scale note at
least circular distance, and reattach the *unchanged* octave number. -/
def snapToScale (scaleNotes : List ℤ) (midiNote : ℚ) : ℚ :=
  let noteInOctave := jsNoteInOctave midiNote
  let octave := ⌊midiNote / 12⌋
  let (nearestNote, _) := snapGo noteInOctave scaleNotes (noteInOctave, 12)
  (octave : ℚ) * 12 + nearestNote

/-- The circular (wraparound) pitch-class distance computed inside the
`snapToScale` loop: `min(|a-b|, 12-|a-b|)`. -/
def circDist (a b : ℚ) : ℚ := min |a - b| (12 - |a - b|)

/-! ## `SectionDetector.createChorusMask` (`worker/src/backingVocals.ts`) -/

/-- Song section labels. -/
inductive SectionType | verse | chorus | bridge | intro | outro
deriving DecidableEq

/-- `SongSection` (sample-index range). -/
structure SongSection where
  start : ℤ
  endIdx : ℤ
  type : SectionType
  energy : ℚ
  isRepeat : Bool
deriving DecidableEq

/-- The gain computed inside the `createChorusMask` loop for index `i` of a
chorus section: default 1, overwritten by the fade-in value, overwritten in
turn by the fade-out value (the source assigns `gain` twice, so fade-out
wins when both conditions hold). -/
def chorusGainAt (fadeLength start endIdx i : ℤ) : ℚ :=
  let g1 : ℚ := if i - start < fadeLength then ((i - start : ℤ) : ℚ) / (fadeLength : ℚ) else 1
  if endIdx - i < fadeLength then ((endIdx - i : ℤ) : ℚ) / (fadeLength : ℚ) else g1

/-- Write `f i` into the mask for `count` consecutive integer indices
starting at `i`; negative indices are typed-array out-of-bounds writes and
are dropped (as is any index `≥` the mask length, via `List.set`). -/
def maskWriteRange (f : ℤ → ℚ) : ℕ → ℤ → List ℚ → List ℚ
  | 0, _, mask => mask
  | count + 1, i, mask =>
    let mask' := if 0 ≤ i then mask.set i.toNat (f i) else mask
    maskWriteRange f count (i + 1) mask'

/-- One section's contribution in the `createChorusMask` loop: chorus
sections get their gain written for `section.start ≤ i` up to
`min(section.end, audioLength)`, other sections leave the mask alone. -/
def chorusMaskStep (fadeLength : ℤ) (audioLength : ℕ) (mask : List ℚ) (s : SongSection) :
    List ℚ :=
  if s.type = SectionType.chorus then
    let stop := min s.endIdx (audioLength : ℤ)
    maskWriteRange (chorusGainAt fadeLength s.start s.endIdx) (stop - s.start).toNat
      s.start mask
  else mask

/-- `SectionDetector.createChorusMask(sections, audioLength)` (lines
842–868): a zero mask, then for each chorus section the per-index gain is
written for `section.start ≤ i < min(section.end, audioLength)`.
`fadeLength = floor(sampleRate * 0.1)`. -/
def createChorusMask (sampleRate : ℚ) (sections : List SongSection) (audioLength : ℕ) :
    List ℚ :=
  let fadeLength := ⌊sampleRate * (1 / 10)⌋
  sections.foldl (chorusMaskStep fadeLength audioLength) (List.replicate audioLength 0)

/-! ## Worker YIN pitch detection (`WorkerVocalAnalyzer`, `part_000`) -/

/-- `diff` for lag `τ`: sum of squared differences over the frame. -/
def yinDiff (frame : List ℚ) (tau : ℕ) : ℚ :=
  ((List.range (frame.length - tau)).map fun i =>
    (frame.getD i 0 - frame.getD (i + tau) 0) ^ 2).sum

/-- `runningSum` after processing lags `1..τ`. -/
def yinRunningSum (frame : List ℚ) (tau : ℕ) : ℚ :=
  ((List.range tau).map fun k => yinDiff frame (k + 1)).sum

/-- The cumulative-mean-normalized difference `cmndf[τ]`; index 0 is the
untouched zero entry of the freshly allocated array. -/
def yinCmndf (frame : List ℚ) (tau : ℕ) : ℚ :=
  if tau = 0 then 0
  else yinDiff frame tau / (yinRunningSum frame tau / (tau : ℚ))

/-- `WorkerVocalAnalyzer.detectPitchYIN` (lines 1601–1628): first
`τ ∈ [minPeriod, maxPeriod-1)` that is a local CMNDF minimum below the 0.15
threshold, else 0. -/
def detectPitchYIN (sampleRate : ℚ) (frame : List ℚ) : ℚ :=
  let minPeriod := (⌊sampleRate / 500⌋).toNat
  let maxPeriod := (⌊sampleRate / 60⌋).toNat
  match
    (List.range' minPeriod (maxPeriod - 1 - minPeriod)).find? fun tau =>
      decide (yinCmndf frame tau < 15 / 100) &&
        decide (yinCmndf frame tau < yinCmndf frame (tau - 1)) &&
        decide (yinCmndf frame tau ≤ yinCmndf frame (tau + 1))
  with
  | some tau => sampleRate / (tau : ℚ)
  | none => 0

/-- The result record of `WorkerVocalAnalyzer.analyzePitch`. -/
structure PitchResult where
  fundamentalFreq : ℚ
  detectedKey : String
  detectedScale : String
  avgPitchDeviation : ℚ
deriving DecidableEq

/-- The note-name table of `analyzePitch`. -/
def noteNames : List String :=
  ["C", "C#", "D", "D#", "E", "F"] ++ ["F#", "G", "G#", "A", "A#", "B"]

/-- The per-frame pitch list collected by `analyzePitch`: YIN on each
2048-sample frame at hop 512, keeping frequencies strictly between 60 and
1000 Hz. -/
def analyzePitchFrames (sampleRate : ℚ) (aud : List ℚ) : List ℚ :=
  let frameSize := 2048
  let hopSize := 512
  let starts := (List.range (aud.length - frameSize)).filter fun s => s % hopSize = 0
  (starts.map fun s => detectPitchYIN sampleRate ((aud.drop s).take frameSize)).filter
    fun freq => 60 < freq ∧ freq < 1000

/-- The non-degenerate branch of `analyzePitch` (median fundamental,
pitch-class histogram key vote, average cents deviation), parameterized by
`FloatOps` for `Math.log2`. -/
def analyzePitchNonEmpty (F : FloatOps) (pitches : List ℚ) : PitchResult :=
  let sorted := pitches.mergeSort (· ≤ ·)
  let fundamentalFreq := sorted.getD (pitches.length / 2) 0
  let pitchClasses :=
    pitches.foldl
      (fun (hist : List ℚ) freq =>
        let midiNote := 12 * F.log2 (freq / 440) + 69
        let pitchClass := (jsRound midiNote) % 12
        if 0 ≤ pitchClass ∧ pitchClass < 12 then
          hist.set pitchClass.toNat (hist.getD pitchClass.toNat 0 + 1)
        else hist)
      (List.replicate 12 0)
  let maxIdx :=
    (List.range 12).foldl
      (fun best i =>
        if 1 ≤ i ∧ pitchClasses.getD i 0 > pitchClasses.getD best 0 then i else best) 0
  let totalDeviation :=
    (pitches.map fun freq =>
      let midiNote := 12 * F.log2 (freq / 440) + 69
      |jsMod midiNote 1 - 1 / 2| * 200).sum
  { fundamentalFreq := fundamentalFreq
    detectedKey := noteNames.getD maxIdx ""
    detectedScale := "major"
    avgPitchDeviation := totalDeviation / (pitches.length : ℚ) }

/-- `WorkerVocalAnalyzer.analyzePitch` (lines 1545–1599): fall back to
`{200, C, major, 30}` when no frame yields a qualifying pitch. -/
def analyzePitch (F : FloatOps) (sampleRate : ℚ) (aud : List ℚ) : PitchResult :=
  let pitches := analyzePitchFrames sampleRate aud
  if pitches = [] then
    { fundamentalFreq := 200, detectedKey := "C", detectedScale := "major",
      avgPitchDeviation := 30 }
  else analyzePitchNonEmpty F pitches

/-! ## WAV codec (`part_000`, `decodeWav` / `encodeWav`)

`Buffer` is modelled as `List ℕ` of byte values. -/

/-- Little-endian unsigned 16-bit write. -/
def u16Bytes (v : ℕ) : List ℕ := [v % 256, v / 256 % 256]

/-- Little-endian unsigned 32-bit write. -/
def u32Bytes (v : ℕ) : List ℕ :=
  [v % 256, v / 256 % 256, v / 65536 % 256, v / 16777216 % 256]

/-- `readUInt16LE`. -/
def readUInt16LE (buf : List ℕ) (off : ℕ) : ℕ :=
  buf.getD off 0 + 256 * buf.getD (off + 1) 0

/-- `readUInt32LE`. -/
def readUInt32LE (buf : List ℕ) (off : ℕ) : ℕ :=
  buf.getD off 0 + 256 * buf.getD (off + 1) 0 + 65536 * buf.getD (off + 2) 0 +
    16777216 * buf.getD (off + 3) 0

/-- `readInt16LE`: two's-complement signed read. -/
def readInt16LE (buf : List ℕ) (off : ℕ) : ℤ :=
  let u := readUInt16LE buf off
  if u ≥ 32768 then (u : ℤ) - 65536 else (u : ℤ)

/-- Two's-complement bytes of a signed 16-bit value (`writeInt16LE`). -/
def int16Bytes (v : ℤ) : List ℕ := u16Bytes (v % 65536).toNat

/-- ASCII bytes of `RIFF`. -/
def riffTag : List ℕ := [82, 73, 70, 70]

/-- ASCII bytes of `WAVE`. -/
def waveTag : List ℕ := [87, 65, 86, 69]

/-- ASCII bytes of `fmt `. -/
def fmtTag : List ℕ := [102, 109, 116, 32]

/-- ASCII bytes of `data`. -/
def dataTag : List ℕ := [100, 97, 116, 97]

/-- The per-sample body of the `encodeWav` write loop: clip to `[-1, 1]`,
scale by 32767, `Math.round`, write as a little-endian signed 16-bit word. -/
def encodeSample (s : ℚ) : List ℕ := int16Bytes (jsRound (max (-1) (min 1 s) * 32767))

/-- The byte image `encodeWav` builds when every header write is in range:
44-byte PCM header followed by clipped, rounded 16-bit samples.  (The
per-sample `writeInt16LE` values are `Math.round` of a clipped sample times
32767, always inside `[-32767, 32767]`, so the sample writes never
throw.) -/
def encodeWavBytes (pcm : List ℚ) (sampleRate : ℕ) (channels : ℕ) : List ℕ :=
  let bytesPerSample := 2
  let dataLength := pcm.length * bytesPerSample
  riffTag ++ u32Bytes (36 + dataLength) ++ waveTag ++
    fmtTag ++ u32Bytes 16 ++ u16Bytes 1 ++ u16Bytes channels ++ u32Bytes sampleRate ++
    u32Bytes (sampleRate * channels * bytesPerSample) ++
    u16Bytes (channels * bytesPerSample) ++ u16Bytes 16 ++
    dataTag ++ u32Bytes dataLength ++
    pcm.flatMap encodeSample

/-- `encodeWav(pcm, sampleRate, channels)` (lines 325–357).  Node's
`Buffer.writeUInt16LE`/`writeUInt32LE` throw `ERR_OUT_OF_RANGE` when the
value does not fit the field, so the function returns a buffer only when
the RIFF size `36 + dataLength` (offset 4), the channel count (22), the
sample rate (24), the byte rate `sampleRate·channels·2` (28), the block
align `channels·2` (32) and the data size (40) are all in range; `none`
models the throw. -/
def encodeWav (pcm : List ℚ) (sampleRate : ℕ) (channels : ℕ) : Option (List ℕ) :=
  if 36 + pcm.length * 2 < 4294967296 ∧ channels < 65536 ∧ sampleRate < 4294967296 ∧
      sampleRate * channels * 2 < 4294967296 ∧ channels * 2 < 65536 ∧
      pcm.length * 2 < 4294967296
  then some (encodeWavBytes pcm sampleRate channels)
  else none

/-- Decoded WAV data. -/
structure WavInfo where
  sampleRate : ℕ
  channels : ℕ
  bitsPerSample : ℕ
  data : List ℚ
deriving DecidableEq

/-- The chunk-scan loop of `decodeWav` (lines 257–274), fuel-indexed: records
the latest `fmt ` and `data` chunk as `(payload offset, size)`.  The scan is
always called with fuel `buf.length`, which bounds the number of iterations
since each one advances `offset` by at least 8. -/
def chunkScan (buf : List ℕ) : ℕ → ℕ → Option (ℕ × ℕ) → Option (ℕ × ℕ) →
    Option (ℕ × ℕ) × Option (ℕ × ℕ)
  | 0, _, fmtChunk, dataChunk => (fmtChunk, dataChunk)
  | fuel + 1, offset, fmtChunk, dataChunk =>
    if offset < buf.length - 8 then
      let chunkId := (buf.drop offset).take 4
      let chunkSize := readUInt32LE buf (offset + 4)
      let fmtChunk' := if chunkId = fmtTag then some (offset + 8, chunkSize) else fmtChunk
      let dataChunk' := if chunkId = dataTag then some (offset + 8, chunkSize) else dataChunk
      let offset' := offset + 8 + chunkSize + (if chunkSize % 2 ≠ 0 then 1 else 0)
      chunkScan buf fuel offset' fmtChunk' dataChunk'
    else (fmtChunk, dataChunk)

/-- `decodeWav(buffer)` (lines 244–320); `none` models a thrown error. -/
def decodeWav (buf : List ℕ) : Option WavInfo :=
  if (buf.take 4) ≠ riffTag then none
  else if ((buf.drop 8).take 4) ≠ waveTag then none
  else
    match chunkScan buf buf.length 12 none none with
    | (none, _) => none
    | (_, none) => none
    | (some (fmtOff, _), some (dataOff, dataSize)) =>
      let fmtChunk := (buf.drop fmtOff).take 16
      let dataChunk := (buf.drop dataOff).take dataSize
      let audioFormat := readUInt16LE fmtChunk 0
      let channels := readUInt16LE fmtChunk 2
      let sampleRate := readUInt32LE fmtChunk 4
      let bitsPerSample := readUInt16LE fmtChunk 14
      if audioFormat ≠ 1 ∧ audioFormat ≠ 3 then none
      else if bitsPerSample = 16 then
        let numSamples := dataChunk.length / 2
        some { sampleRate := sampleRate, channels := channels, bitsPerSample := 16,
               data := (List.range numSamples).map fun i =>
                 (readInt16LE dataChunk (i * 2) : ℚ) / 32768 }
      else if bitsPerSample = 24 then
        let numSamples := dataChunk.length / 3
        some { sampleRate := sampleRate, channels := channels, bitsPerSample := 24,
               data := (List.range numSamples).map fun i =>
                 let sample :=
                   dataChunk.getD (i * 3) 0 + 256 * dataChunk.getD (i * 3 + 1) 0 +
                     65536 * dataChunk.getD (i * 3 + 2) 0
                 (((if sample ≥ 8388608 then (sample : ℤ) - 16777216 else (sample : ℤ)) : ℚ)) /
                   8388608 }
      else if bitsPerSample = 32 ∧ audioFormat = 3 then
        -- the source reinterprets the bytes as IEEE-754 floats here; that
        -- bit-level conversion has no rational-number counterpart and no
        -- claim depends on it, so this branch is left unmodelled
        none
      else if bitsPerSample = 32 then
        let numSamples := dataChunk.length / 4
        some { sampleRate := sampleRate, channels := channels, bitsPerSample := 32,
               data := (List.range numSamples).map fun i =>
                 let u :=
                   dataChunk.getD (i * 4) 0 + 256 * dataChunk.getD (i * 4 + 1) 0 +
                     65536 * dataChunk.getD (i * 4 + 2) 0 +
                     16777216 * dataChunk.getD (i * 4 + 3) 0
                 (((if u ≥ 2147483648 then (u : ℤ) - 4294967296 else (u : ℤ)) : ℚ)) /
                   2147483648 }
      else none

/-! ## `BasePlugin` parameter model and `VocalChain` (C10)

The parameter maps (`parameters`, `parameterDescriptors`) are modelled as
insertion-ordered association lists; internal DSP memory (filter states,
envelopes, delay lines) is not part of this model — C10 is about parameter
values, bypass and the chain-level gain/send fields. -/

/-- The fields of `ParameterDescriptor` used by `setParameter`/`reset`. -/
structure ParamDesc where
  name : String
  minV : ℚ
  maxV : ℚ
  defaultV : ℚ
deriving DecidableEq

/-- A `BasePlugin`'s parameter-related state. -/
structure PluginState where
  descriptors : List ParamDesc
  params : List (String × ℚ)
  bypass : Bool
deriving DecidableEq

/-- `Map.set` on an insertion-ordered association list. -/
def assocSet (l : List (String × ℚ)) (k : String) (v : ℚ) : List (String × ℚ) :=
  if l.any fun p => p.1 = k then l.map fun p => if p.1 = k then (k, v) else p
  else l ++ [(k, v)]

/-- `BasePlugin.setParameter(name, value)`: unknown names are warned about
and ignored; known ones are range-clamped against the descriptor. -/
def setParameter (p : PluginState) (name : String) (value : ℚ) : PluginState :=
  match p.descriptors.find? fun d => d.name = name with
  | none => p
  | some d =>
    { p with params := assocSet p.params name (max d.minV (min d.maxV value)) }

/-- `BasePlugin.getParameter(name)`: `?? 0`. -/
def getParameter (p : PluginState) (name : String) : ℚ :=
  match p.params.find? fun q => q.1 = name with
  | none => 0
  | some q => q.2

/-- `BasePlugin.reset()` (lines 107–112): every registered parameter is set
back to its descriptor default and bypass is cleared.  (Each concrete
plugin's `reset` override in the repository calls `super.reset()` and then
zeroes only internal DSP memory.) -/
def resetPlugin (p : PluginState) : PluginState :=
  { (p.descriptors.foldl (fun q d => setParameter q d.name d.defaultV) p) with
    bypass := false }

/-! The `ChainParameters` records consumed by `configureFromParameters`. -/

/-- Gain-staging parameters. -/
structure GainStagingParams where
  inputGain : ℚ
deriving DecidableEq

/-- Subtractive-EQ parameters. -/
structure SubEQChainParams where
  highPassFreq : ℚ
  highPassSlope : ℚ
  bands : List EQBand
deriving DecidableEq

/-- De-esser parameters. -/
structure DeEsserParams where
  frequency : ℚ
  threshold : ℚ
  ratioP : ℚ
  range : ℚ
deriving DecidableEq

/-- Compressor-stage parameters. -/
structure CompressorParams where
  threshold : ℚ
  ratioP : ℚ
  attack : ℚ
  release : ℚ
deriving DecidableEq

/-- Autotune parameters. -/
structure AutotuneParams where
  key : String
  scale : String
  retuneSpeed : ℚ
  humanize : ℚ
  formantPreserve : Bool
  enabled : Bool
deriving DecidableEq

/-- Additive-EQ parameters. -/
structure AdditiveEQParams where
  presenceFreq : ℚ
  presenceGain : ℚ
  presenceQ : ℚ
  airShelfFreq : ℚ
  airShelfGain : ℚ
deriving DecidableEq

/-- Saturation parameters. -/
structure SaturationParams where
  drive : ℚ
  mix : ℚ
deriving DecidableEq

/-- Reverb parameters. -/
structure ReverbParams where
  type : ReverbKind
  preDelay : ℚ
  decay : ℚ
  damping : ℚ
  wetLevel : ℚ
deriving DecidableEq

/-- Delay parameters. -/
structure DelayParams where
  enabled : Bool
  time : ℚ
  feedback : ℚ
  wetLevel : ℚ
  highCut : ℚ
deriving DecidableEq

/-- `ChainParameters`. -/
structure ChainParameters where
  gainStaging : GainStagingParams
  subtractiveEQ : SubEQChainParams
  deEsser : DeEsserParams
  compressionA : CompressorParams
  compressionB : CompressorParams
  autotune : AutotuneParams
  additiveEQ : AdditiveEQParams
  saturation : SaturationParams
  reverb : ReverbParams
  delay : DelayParams
deriving DecidableEq

/-- `VocalChain`'s state: the nine stage plugins plus the chain-level gain
staging and send levels (constructor defaults 1, 1, 0.2, 0.1). -/
structure VocalChain where
  subtractiveEQ : PluginState
  deEsser : PluginState
  compressorA : PluginState
  compressorB : PluginState
  autoTune : PluginState
  additiveEQ : PluginState
  saturation : PluginState
  reverb : PluginState
  delay : PluginState
  inputGain : ℚ
  outputGain : ℚ
  reverbSendLevel : ℚ
  delaySendLevel : ℚ
deriving DecidableEq

/-- The `keyMap` of `AutoTune.setKeyAndScale`. -/
def keyMapLookup (key : String) : ℚ :=
  if key = "C" then 0 else if key = "C#" then 1 else if key = "D" then 2
  else if key = "D#" then 3 else if key = "E" then 4 else if key = "F" then 5
  else if key = "F#" then 6 else if key = "G" then 7 else if key = "G#" then 8
  else if key = "A" then 9 else if key = "A#" then 10 else if key = "B" then 11
  else 0

/-- The `scaleMap` of `AutoTune.setKeyAndScale`. -/
def scaleMapLookup (scale : String) : ℚ :=
  if scale = "major" then 0 else if scale = "minor" then 1
  else if scale = "pentatonic" then 2 else if scale = "blues" then 3
  else if scale = "chromatic" then 4 else 0

/-- `AutoTune.setKeyAndScale` as it affects the parameter map (the
`updateScaleNotes` call only rebuilds internal DSP state). -/
def setKeyAndScale (p : PluginState) (key scale : String) : PluginState :=
  setParameter (setParameter p "key" (keyMapLookup key)) "scale" (scaleMapLookup scale)

/-- `ParametricEQ.configureBands(bands)`: configure up to six bands. -/
def configureBands (p : PluginState) (bands : List EQBand) : PluginState :=
  (List.range (min bands.length 6)).foldl
    (fun q i =>
      let band := bands.getD i ⟨0, 0, 0, false⟩
      setParameter
        (setParameter
          (setParameter
            (setParameter q (toString i |> fun s => "band" ++ s ++ "Frequency") band.frequency)
            (toString i |> fun s => "band" ++ s ++ "Gain") band.gain)
          (toString i |> fun s => "band" ++ s ++ "Q") band.q)
        (toString i |> fun s => "band" ++ s ++ "Enabled") (if band.enabled then 1 else 0))
    p

/-- `VocalChain.configureFromParameters(params)` (VocalChain.ts lines
124–193), translated `setParameter` call for call; `Math.pow(10, x/20)` goes
through `FloatOps`. -/
def configureFromParameters (F : FloatOps) (ch : VocalChain) (params : ChainParameters) :
    VocalChain :=
  let subEQ :=
    configureBands
      (setParameter
        (setParameter
          (setParameter ch.subtractiveEQ "hpfFrequency" params.subtractiveEQ.highPassFreq)
          "hpfSlope" params.subtractiveEQ.highPassSlope)
        "hpfEnabled" 1)
      params.subtractiveEQ.bands
  let deEsser :=
    setParameter
      (setParameter
        (setParameter (setParameter ch.deEsser "frequency" params.deEsser.frequency)
          "threshold" params.deEsser.threshold)
        "ratio" params.deEsser.ratioP)
      "range" params.deEsser.range
  let compA :=
    setParameter
      (setParameter
        (setParameter (setParameter ch.compressorA "threshold" params.compressionA.threshold)
          "ratio" params.compressionA.ratioP)
        "attack" params.compressionA.attack)
      "release" params.compressionA.release
  let compB :=
    setParameter
      (setParameter
        (setParameter (setParameter ch.compressorB "threshold" params.compressionB.threshold)
          "ratio" params.compressionB.ratioP)
        "attack" params.compressionB.attack)
      "release" params.compressionB.release
  let autoTune :=
    setParameter
      (setParameter
        (setParameter
          (setParameter (setKeyAndScale ch.autoTune params.autotune.key params.autotune.scale)
            "retuneSpeed" params.autotune.retuneSpeed)
          "humanize" params.autotune.humanize)
        "formantPreserve" (if params.autotune.formantPreserve then 1 else 0))
      "enabled" (if params.autotune.enabled then 1 else 0)
  let addEQ :=
    setParameter
      (setParameter
        (setParameter
          (setParameter
            (setParameter
              (setParameter
                (setParameter ch.additiveEQ "band2Frequency" params.additiveEQ.presenceFreq)
                "band2Gain" params.additiveEQ.presenceGain)
              "band2Q" params.additiveEQ.presenceQ)
            "band2Enabled" 1)
          "band5Frequency" params.additiveEQ.airShelfFreq)
        "band5Gain" params.additiveEQ.airShelfGain)
      "band5Enabled" 1
  let saturation :=
    setParameter (setParameter ch.saturation "drive" params.saturation.drive)
      "mix" params.saturation.mix
  let reverb :=
    setParameter
      (setParameter
        (setParameter
          (setParameter
            (setParameter ch.reverb "type"
              (match params.reverb.type with
               | ReverbKind.plate => 0
               | ReverbKind.room => 1
               | ReverbKind.hall => 2))
            "preDelay" params.reverb.preDelay)
          "decay" params.reverb.decay)
        "damping" params.reverb.damping)
      "wetLevel" params.reverb.wetLevel
  let delay :=
    if params.delay.enabled then
      setParameter
        (setParameter
          (setParameter (setParameter ch.delay "time" params.delay.time)
            "feedback" params.delay.feedback)
          "wetLevel" params.delay.wetLevel)
        "highCut" params.delay.highCut
    else ch.delay
  { ch with
    subtractiveEQ := subEQ
    deEsser := deEsser
    compressorA := compA
    compressorB := compB
    autoTune := autoTune
    additiveEQ := addEQ
    saturation := saturation
    reverb := reverb
    delay := delay
    inputGain := F.pow10 (params.gainStaging.inputGain / 20)
    reverbSendLevel := params.reverb.wetLevel / 100
    delaySendLevel := if params.delay.enabled then params.delay.wetLevel / 100 else 0 }

/-- `VocalChain.reset()` (lines 290–300): resets the nine plugins but none
of the chain-level `inputGain`/`outputGain`/send-level fields. -/
def chainReset (ch : VocalChain) : VocalChain :=
  { ch with
    subtractiveEQ := resetPlugin ch.subtractiveEQ
    deEsser := resetPlugin ch.deEsser
    compressorA := resetPlugin ch.compressorA
    compressorB := resetPlugin ch.compressorB
    autoTune := resetPlugin ch.autoTune
    additiveEQ := resetPlugin ch.additiveEQ
    saturation := resetPlugin ch.saturation
    reverb := resetPlugin ch.reverb
    delay := resetPlugin ch.delay }

/-! ## Concrete `FloatOps` models used by witnesses and counterexamples -/

/-- A trivially well-behaved model of the transcendental functions:
`pow10` constantly 1, `exp` constantly `1/2`, logs constantly 0. -/
def floatOpsOne : FloatOps :=
  { exp := fun _ => 1 / 2
    pow10 := fun _ => 1
    log10 := fun _ => 0
    log2 := fun _ => 0 }

/-- A model with very negative logarithms (any level reads far below any
threshold) and unit powers, satisfying every hypothesis of the C3 amended
theorem at its witness parameters. -/
def floatOpsLow : FloatOps :=
  { exp := fun _ => 1 / 2
    pow10 := fun _ => 1
    log10 := fun _ => -100
    log2 := fun _ => 0 }

/-- A rational model of the math functions agreeing with the real
`Math.exp`/`Math.pow`/`Math.log10` (to the displayed precision) at every
point the C3 counterexample trace evaluates them:
`exp(-5/4) ≈ 0.2865`, `pow10(-0.9) ≈ 0.1259`, `pow10(0) = 1`,
`log10(0.089822515) ≈ -1.0466`, `pow10(-289/30000000) ≈ 0.9999978`. -/
def floatOpsCx : FloatOps :=
  { exp := fun _ => 2865 / 10000
    pow10 := fun x =>
      if x = 0 then 1
      else if x = -9 / 10 then 1259 / 10000
      else if x = -289 / 30000000 then 9999978 / 10000000
      else 1
    log10 := fun x => if x = 17964503 / 200000000 then -5233 / 5000 else 0
    log2 := fun _ => 0 }

/-! ## Concrete plugin/chain states used by the C10 witness/counterexample -/

/-- Descriptor names paired with in-range defaults, a small but
representative parameter table. -/
def sampleDescs : List ParamDesc :=
  [⟨"threshold", -60, 0, -18⟩, ⟨"ratio", 1, 20, 4⟩]

/-- A freshly constructed chain: plugin parameter state as registered, and
the constructor defaults `inputGain = outputGain = 1`,
`reverbSendLevel = 0.2`, `delaySendLevel = 0.1`. -/
def pristineChain : VocalChain :=
  { subtractiveEQ := ⟨sampleDescs, [("threshold", -18), ("ratio", 4)], false⟩
    deEsser := ⟨[], [], false⟩
    compressorA := ⟨[], [], false⟩
    compressorB := ⟨[], [], false⟩
    autoTune := ⟨[], [], false⟩
    additiveEQ := ⟨[], [], false⟩
    saturation := ⟨[], [], false⟩
    reverb := ⟨[], [], false⟩
    delay := ⟨[], [], false⟩
    inputGain := 1
    outputGain := 1
    reverbSendLevel := 1 / 5
    delaySendLevel := 1 / 10 }

/-- A concrete `ChainParameters` record with reverb wet level 50. -/
def chainParamsCx : ChainParameters :=
  { gainStaging := ⟨20⟩
    subtractiveEQ := ⟨100, 18, []⟩
    deEsser := ⟨6000, -20, 4, 10⟩
    compressionA := ⟨-18, 2, 30, 200⟩
    compressionB := ⟨-12, 4, 5, 50⟩
    autotune := ⟨"C", "major", 50, 30, true, true⟩
    additiveEQ := ⟨4000, 2, 6 / 5, 12000, 3 / 2⟩
    saturation := ⟨5, 8⟩
    reverb := ⟨ReverbKind.plate, 50, 9 / 5, 1 / 2, 50⟩
    delay := ⟨false, 250, 20, 10, 5000⟩ }

/-- Well-formedness of a plugin's registered descriptors: unique names and
defaults inside the declared ranges (true of every plugin in the
repository). -/
def WellFormedDescs (p : PluginState) : Prop :=
  (p.descriptors.map fun d => d.name).Nodup ∧
    ∀ d ∈ p.descriptors, d.minV ≤ d.defaultV ∧ d.defaultV ≤ d.maxV

/-- The nine stage plugins of a chain, in processing order. -/
def chainPlugins (ch : VocalChain) : List PluginState :=
  [ch.subtractiveEQ, ch.deEsser, ch.compressorA, ch.compressorB, ch.autoTune,
    ch.additiveEQ, ch.saturation, ch.reverb, ch.delay]

/-! # Theorems settling the claims -/

/-- The final hard-clip of the `Limiter` plugin keeps any value within a
positive ceiling. -/
theorem hardClip_le (s cL : ℚ) (hcL : 0 < cL) :
    |if |s| > cL then jsSign s * cL else s| ≤ cL := by
  split
  · next h =>
    rw [abs_mul]
    have h1 : |jsSign s| ≤ 1 := by
      unfold jsSign
      split
      · norm_num
      · split <;> norm_num
    calc |jsSign s| * |cL| ≤ 1 * |cL| := mul_le_mul_of_nonneg_right h1 (abs_nonneg cL)
      _ = cL := by rw [one_mul, abs_of_pos hcL]
  · next h => exact le_of_not_lt h

/-! ## C1 -/

/-- C1: in `processVocalChainWithAI`, once the autotune macro exceeds the 5 %
gate, the pitch-correction call is `applySimpleAutotune(audio, sampleRate,
autotuneStrength/100)` — the sample rate lands in the `strength` parameter
and the macro-derived strength in the `sampleRate` parameter.  Consequently
the result does not depend on the macro value at all (beyond the gate), and
for any sample rate ≥ 10 the stage applies the smoothing with blend amount
`min(sampleRate/100, 0.5)`: the applied correction strength is the sample
rate, not the user's macro value. -/
theorem C1_autotune_arguments_swapped (aud : List ℚ) (sampleRate s₁ s₂ : ℚ)
    (h₁ : s₁ / 100 > 5 / 100) (h₂ : s₂ / 100 > 5 / 100) (hsr : 10 ≤ sampleRate) :
    vocalChainAutotuneStage aud sampleRate s₁ =
        applySimpleAutotune aud sampleRate (s₁ / 100) ∧
      vocalChainAutotuneStage aud sampleRate s₁ = vocalChainAutotuneStage aud sampleRate s₂ ∧
      vocalChainAutotuneStage aud sampleRate s₁ =
        autotuneSmooth aud (min (sampleRate / 100) (1 / 2)) := by
  have hns : ¬ sampleRate < 10 := not_lt.mpr hsr
  refine ⟨?_, ?_, ?_⟩
  · simp only [vocalChainAutotuneStage, if_pos h₁]
  · simp only [vocalChainAutotuneStage, if_pos h₁, if_pos h₂]
    rfl
  · simp only [vocalChainAutotuneStage, if_pos h₁, applySimpleAutotune, if_neg hns]

/-- Witness for C1 at a concrete buffer, the default 44100 Hz sample rate and
macro strengths 80 and 10. -/
theorem C1_autotune_arguments_swapped_witness :
    ((80 : ℚ) / 100 > 5 / 100 ∧ (10 : ℚ) / 100 > 5 / 100 ∧ (10 : ℚ) ≤ 44100) ∧
      (vocalChainAutotuneStage [1, 2, 3] 44100 80 =
          applySimpleAutotune [1, 2, 3] 44100 (80 / 100) ∧
        vocalChainAutotuneStage [1, 2, 3] 44100 80 =
          vocalChainAutotuneStage [1, 2, 3] 44100 10 ∧
        vocalChainAutotuneStage [1, 2, 3] 44100 80 =
          autotuneSmooth [1, 2, 3] (min ((44100 : ℚ) / 100) (1 / 2))) :=
  ⟨⟨by norm_num, by norm_num, by norm_num⟩,
    C1_autotune_arguments_swapped [1, 2, 3] 44100 80 10 (by norm_num) (by norm_num)
      (by norm_num)⟩

/-! ## C2 -/

/-- C2 counterexample: the worker `applyLimiter` does *not* keep its output
within the ceiling.  For the two-sample input `[0.96, 0.96]` (well inside
10 × the 0.95 ceiling) the second output sample is `0.95/0.9995 =
1900/1999 > 0.95`: on the release step the envelope decays below the
instantaneous peak, so the gain under-corrects by one release factor. -/
theorem C2_limiter_ceiling_counterexample :
    (∀ x ∈ [(96 : ℚ) / 100, 96 / 100], |x| ≤ 10 * (95 / 100)) ∧
      applyLimiter [(96 : ℚ) / 100, 96 / 100] (95 / 100) = [95 / 100, 1900 / 1999] ∧
      ¬ ((1900 : ℚ) / 1999 ≤ 95 / 100) := by
  refine ⟨?_, ?_, by norm_num⟩
  · intro x hx
    simp only [List.mem_cons, List.not_mem_nil, or_false] at hx
    rcases hx with h | h <;> subst h <;> norm_num [abs]
  · norm_num [applyLimiter, applyLimiterGo, abs]

/-- The envelope of `applyLimiterGo` stays within one release factor of the
instantaneous peak, so every output sample is within `ceiling / 0.9995`. -/
theorem applyLimiterGo_ceiling_bound (ceiling : ℚ) (hc : 0 ≤ ceiling) (xs : List ℚ) :
    ∀ env : ℚ, 0 ≤ env →
      ∀ y ∈ applyLimiterGo ceiling env xs, |y| ≤ ceiling / (9995 / 10000) := by
  induction xs with
  | nil => intro env _ y hy; simp [applyLimiterGo] at hy
  | cons x xs ih =>
    intro env henv y hy
    simp only [applyLimiterGo, List.mem_cons] at hy
    have henv'0 : 0 ≤ (if |x| > env then |x| else env * (9995 / 10000)) := by
      split
      · exact abs_nonneg x
      · exact mul_nonneg henv (by norm_num)
    have hxe : 9995 / 10000 * |x| ≤ (if |x| > env then |x| else env * (9995 / 10000)) := by
      split
      · linarith [abs_nonneg x]
      · next h =>
        push_neg at h
        linarith
    rcases hy with hy | hy
    · subst hy
      set env' := if |x| > env then |x| else env * (9995 / 10000) with henvdef
      by_cases hover : env' > ceiling
      · rw [if_pos hover, abs_mul]
        have henvpos : 0 < env' := lt_of_le_of_lt hc hover
        rw [abs_of_nonneg (div_nonneg hc henvpos.le)]
        rw [le_div_iff₀ (show (0 : ℚ) < 9995 / 10000 by norm_num)]
        calc |x| * (ceiling / env') * (9995 / 10000)
            = (9995 / 10000 * |x|) * ceiling / env' := by ring
          _ ≤ env' * ceiling / env' := by
              apply (div_le_div_iff_of_pos_right henvpos).mpr
              nlinarith
          _ = ceiling := by
              rw [mul_comm, mul_div_assoc, div_self henvpos.ne', mul_one]
      · rw [if_neg hover, mul_one]
        push_neg at hover
        have hxc : 9995 / 10000 * |x| ≤ ceiling := le_trans hxe hover
        rw [le_div_iff₀ (by norm_num : (0 : ℚ) < 9995 / 10000)]
        linarith
    · exact ih _ henv'0 y hy

/-- Every sample leaving `limiterStep` respects the hard ceiling clamp. -/
theorem limiterStep_snd_le (tL cL mg aC rC : ℚ) (las : ℕ) (st : LimiterState) (x : ℚ)
    (hcL : 0 < cL) : |(limiterStep tL cL mg aC rC las st x).2| ≤ cL := by
  unfold limiterStep
  dsimp only
  split <;> split <;> exact hardClip_le _ _ hcL

/-- Outputs of the `Limiter.process` loop never exceed the linear ceiling. -/
theorem limiterProcessGo_ceiling_bound (tL cL mg aC rC : ℚ) (las : ℕ) (hcL : 0 < cL)
    (xs : List ℚ) :
    ∀ st : LimiterState, ∀ y ∈ limiterProcessGo tL cL mg aC rC las st xs, |y| ≤ cL := by
  induction xs with
  | nil => intro st y hy; simp [limiterProcessGo] at hy
  | cons x xs ih =>
    intro st y hy
    simp only [limiterProcessGo, List.mem_cons] at hy
    rcases hy with hy | hy
    · subst hy; exact limiterStep_snd_le tL cL mg aC rC las st x hcL
    · exact ih _ y hy

/-- C2 (amended): for inputs up to 10 × the ceiling, the worker
`applyLimiter` keeps every output within `ceiling / 0.9995` (one release
factor above the ceiling — not the ceiling itself, per the counterexample),
while the `Limiter` plugin's final hard clamp keeps every output within its
linear ceiling `pow10(ceiling/20)` outright. -/
theorem C2_limiter_ceiling_amended (ceiling : ℚ) (aud : List ℚ) (F : FloatOps)
    (threshold ceilingDb release lookAheadMs sampleRate : ℚ) (autoGain : Bool)
    (input : List ℚ) (hc : 0 ≤ ceiling) (_h10 : ∀ x ∈ aud, |x| ≤ 10 * ceiling)
    (hcL : 0 < F.pow10 (ceilingDb / 20)) :
    (∀ y ∈ applyLimiter aud ceiling, |y| ≤ ceiling / (9995 / 10000)) ∧
      ∀ y ∈ limiterProcess F threshold ceilingDb release lookAheadMs autoGain
          sampleRate input, |y| ≤ F.pow10 (ceilingDb / 20) := by
  constructor
  · exact fun y hy => applyLimiterGo_ceiling_bound ceiling hc aud 0 le_rfl y hy
  · exact fun y hy => limiterProcessGo_ceiling_bound _ _ _ _ _ _ hcL input _ y hy

/-- Witness for the amended C2 at the worker call site's `ceiling = 0.95`
with input `[0.96, 0.96]`, and the plugin at its default parameters under
the constant-1 `pow10` model. -/
theorem C2_limiter_ceiling_amended_witness :
    ((0 : ℚ) ≤ 95 / 100 ∧ (∀ x ∈ [(96 : ℚ) / 100, 96 / 100], |x| ≤ 10 * (95 / 100)) ∧
        0 < floatOpsOne.pow10 ((-1) / 20)) ∧
      ((∀ y ∈ applyLimiter [(96 : ℚ) / 100, 96 / 100] (95 / 100),
          |y| ≤ (95 / 100) / (9995 / 10000)) ∧
        ∀ y ∈ limiterProcess floatOpsOne (-1) (-1) 100 5 true 44100 [2],
          |y| ≤ floatOpsOne.pow10 ((-1) / 20)) :=
  ⟨⟨by norm_num,
      by
        intro x hx
        simp only [List.mem_cons, List.not_mem_nil, or_false] at hx
        rcases hx with h | h <;> subst h <;> norm_num [abs],
      by norm_num [floatOpsOne]⟩,
    C2_limiter_ceiling_amended (95 / 100) [(96 : ℚ) / 100, 96 / 100] floatOpsOne
      (-1) (-1) 100 5 44100 true [2] (by norm_num)
      (by
        intro x hx
        simp only [List.mem_cons, List.not_mem_nil, or_false] at hx
        rcases hx with h | h <;> subst h <;> norm_num [abs])
      (by norm_num [floatOpsOne])⟩


/-! ## C3 -/

/-- The gain computer returns 0 at or below the bottom of the knee. -/
theorem compressorGainDb_eq_zero (threshold ratioP knee eDb : ℚ) (hknee : 0 < knee)
    (h : eDb ≤ threshold - knee / 2) : compressorGainDb threshold ratioP knee eDb = 0 := by
  unfold compressorGainDb
  rcases lt_or_eq_of_le h with h' | h'
  · rw [if_pos h']
  · rw [if_neg (not_lt.mpr h'.ge), if_neg (not_lt.mpr (by linarith))]
    rw [h']
    ring_nf

/-- One envelope-follower step stays inside `[0, B]` when the coefficients
are in `[0, 1]` and both the previous envelope and the input level are. -/
theorem envStep_mem (aC rC env lvl B : ℚ) (haC0 : 0 ≤ aC) (haC1 : aC ≤ 1)
    (hrC0 : 0 ≤ rC) (hrC1 : rC ≤ 1) (henv0 : 0 ≤ env) (henvB : env ≤ B)
    (hlvl0 : 0 ≤ lvl) (hlvlB : lvl ≤ B) :
    0 ≤ (if lvl > env then aC else rC) * env + (1 - if lvl > env then aC else rC) * lvl ∧
      (if lvl > env then aC else rC) * env + (1 - if lvl > env then aC else rC) * lvl ≤ B := by
  split <;> constructor <;> nlinarith

/-- Below the bottom of the knee the plugin compressor is the identity and
reports `gainDb = 0` on every sample. -/
theorem compressorGo_below_knee (F : FloatOps) (threshold ratioP aC rC knee mg : ℚ)
    (hknee : 0 < knee) (hmg : F.pow10 (0 / 20) * mg = 1)
    (haC0 : 0 ≤ aC) (haC1 : aC ≤ 1) (hrC0 : 0 ≤ rC) (hrC1 : rC ≤ 1)
    (hlog : ∀ e : ℚ, 0 ≤ e → e ≤ F.pow10 ((threshold - knee / 2) / 20) →
      20 * F.log10 (max e (1 / 10000000000)) ≤ threshold - knee / 2)
    (xs : List ℚ) :
    ∀ env : ℚ, 0 ≤ env → env ≤ F.pow10 ((threshold - knee / 2) / 20) →
      (∀ x ∈ xs, |x| ≤ F.pow10 ((threshold - knee / 2) / 20)) →
      compressorGo F threshold ratioP aC rC knee mg env xs = xs.map fun x => (x, 0) := by
  induction xs with
  | nil => intro env _ _ _; rfl
  | cons x xs ih =>
    intro env henv0 henvB hall
    have hx : |x| ≤ F.pow10 ((threshold - knee / 2) / 20) := hall x (by simp)
    have hmem := envStep_mem aC rC env |x| (F.pow10 ((threshold - knee / 2) / 20))
      haC0 haC1 hrC0 hrC1 henv0 henvB (abs_nonneg x) hx
    have hdb := hlog _ hmem.1 hmem.2
    simp only [compressorGo, List.map_cons]
    rw [compressorGainDb_eq_zero threshold ratioP knee _ hknee hdb, hmg, mul_one]
    exact congrArg ((x, 0) :: ·) (ih _ hmem.1 hmem.2 fun z hz => hall z (by simp [hz]))

/-- Below the linear threshold the worker `SimpleCompressor` applies gain
exactly 1, so its output equals its input. -/
theorem simpleCompressorGo_below_threshold (F : FloatOps) (T ratioP aC rC : ℚ)
    (haC0 : 0 ≤ aC) (_haC1 : aC ≤ 1) (hrC0 : 0 ≤ rC) (hrC1 : rC ≤ 1) (xs : List ℚ) :
    ∀ env : ℚ, env ≤ T → (∀ x ∈ xs, |x| ≤ T) →
      simpleCompressorGo F T ratioP aC rC env xs = xs := by
  induction xs with
  | nil => intro env _ _; rfl
  | cons x xs ih =>
    intro env henv hall
    have hx : |x| ≤ T := hall x (by simp)
    have henv' : (if |x| > env then aC * env + (1 - aC) * |x|
        else rC * env + (1 - rC) * |x|) ≤ T := by
      split <;> nlinarith
    simp only [simpleCompressorGo]
    rw [if_neg (not_lt.mpr henv'), mul_one]
    exact congrArg (x :: ·) (ih _ henv' fun z hz => hall z (by simp [hz]))

/-- C3 counterexample: the claim fails on `Compressor.process`.  With the
leveling configuration `threshold = -18 dB`, `ratio = 2`, `knee = 6 dB`
(the registered default), makeup gain 0, attack 0.1 ms at 8000 Hz, and the
single-sample input `0.12589` — strictly below the linear threshold
`pow10(-0.9) ≈ 0.1259` — the envelope lands *inside the soft knee* (at
≈ -20.93 dB, above `threshold - knee/2 = -21 dB`), so the computed `gainDb`
is `-289/1500000 ≠ 0` and the output sample differs from the input.  The
`floatOpsCx` model agrees with the real `Math` functions at every point this
trace evaluates them. -/
theorem C3_compressor_below_threshold_counterexample :
    ((12589 : ℚ) / 100000 < floatOpsCx.pow10 ((-18) / 20) ∧
        floatOpsCx.pow10 0 = 1 ∧
        0 ≤ floatOpsCx.exp (-1 / (8000 * (1 / 10) / 1000)) ∧
        floatOpsCx.exp (-1 / (8000 * (1 / 10) / 1000)) ≤ 1 ∧
        0 ≤ floatOpsCx.exp (-1 / (8000 * 10 / 1000)) ∧
        floatOpsCx.exp (-1 / (8000 * 10 / 1000)) ≤ 1 ∧
        (0 : ℚ) < 6) ∧
      compressorProcess floatOpsCx (-18) 2 (1 / 10) 10 6 0 8000 [12589 / 100000] =
        [(62944861521 / 500000000000, -289 / 1500000)] ∧
      ¬ ((-289 : ℚ) / 1500000 = 0) ∧
      ¬ ((62944861521 : ℚ) / 500000000000 = 12589 / 100000) := by
  refine ⟨⟨?_, ?_, ?_, ?_, ?_, ?_, ?_⟩, ?_, ?_, ?_⟩
  · norm_num [floatOpsCx]
  · norm_num [floatOpsCx]
  · norm_num [floatOpsCx]
  · norm_num [floatOpsCx]
  · norm_num [floatOpsCx]
  · norm_num [floatOpsCx]
  · norm_num
  · norm_num [compressorProcess, compressorGo, compressorGainDb, floatOpsCx, abs, max_def]
  · norm_num
  · norm_num

/-- C3 (amended): the no-gain-reduction guarantee holds once the signal
stays below the *bottom of the knee* (`threshold - knee/2`), not merely
below the threshold: there `Compressor.process` with makeup gain 0 returns
the input unchanged with `gainDb = 0` on every sample.  The worker
`SimpleCompressor`, which has a hard knee, keeps gain exactly 1 for all
inputs below its linear threshold, as the claim states. -/
theorem C3_compressor_no_reduction_amended (F : FloatOps)
    (threshold ratioP attack release knee sampleRate : ℚ) (input input₂ : List ℚ)
    (sThreshold sRatioP sAttackMs sReleaseMs sSampleRate : ℚ)
    (hknee : 0 < knee) (hpow0 : F.pow10 0 = 1)
    (haC0 : 0 ≤ F.exp (-1 / (sampleRate * attack / 1000)))
    (haC1 : F.exp (-1 / (sampleRate * attack / 1000)) ≤ 1)
    (hrC0 : 0 ≤ F.exp (-1 / (sampleRate * release / 1000)))
    (hrC1 : F.exp (-1 / (sampleRate * release / 1000)) ≤ 1)
    (hlog : ∀ e : ℚ, 0 ≤ e → e ≤ F.pow10 ((threshold - knee / 2) / 20) →
      20 * F.log10 (max e (1 / 10000000000)) ≤ threshold - knee / 2)
    (hB0 : 0 ≤ F.pow10 ((threshold - knee / 2) / 20))
    (hin : ∀ x ∈ input, |x| ≤ F.pow10 ((threshold - knee / 2) / 20))
    (hsaC0 : 0 ≤ F.exp (-1 / (sSampleRate * sAttackMs / 1000)))
    (hsaC1 : F.exp (-1 / (sSampleRate * sAttackMs / 1000)) ≤ 1)
    (hsrC0 : 0 ≤ F.exp (-1 / (sSampleRate * sReleaseMs / 1000)))
    (hsrC1 : F.exp (-1 / (sSampleRate * sReleaseMs / 1000)) ≤ 1)
    (hB0s : 0 ≤ F.pow10 (sThreshold / 20))
    (hin₂ : ∀ x ∈ input₂, |x| ≤ F.pow10 (sThreshold / 20)) :
    compressorProcess F threshold ratioP attack release knee 0 sampleRate input =
        input.map (fun x => (x, 0)) ∧
      simpleCompressorProcess F sThreshold sRatioP sAttackMs sReleaseMs sSampleRate input₂ =
        input₂ := by
  constructor
  · unfold compressorProcess
    have hmg : F.pow10 ((0 : ℚ) / 20) * F.pow10 ((0 : ℚ) / 20) = 1 := by
      rw [show ((0 : ℚ) / 20) = 0 by norm_num, hpow0, mul_one]
    exact compressorGo_below_knee F threshold ratioP _ _ knee _ hknee hmg
      haC0 haC1 hrC0 hrC1 hlog input 0 le_rfl hB0 hin
  · unfold simpleCompressorProcess
    exact simpleCompressorGo_below_threshold F _ sRatioP _ _ hsaC0 hsaC1 hsrC0 hsrC1 input₂ 0
      hB0s hin₂

/-- Witness for the amended C3: the leveling configuration at 44100 Hz on
the single-sample input `[1/2]`, under the `floatOpsLow` model. -/
theorem C3_compressor_no_reduction_amended_witness :
    ((0 : ℚ) < 6 ∧ floatOpsLow.pow10 0 = 1 ∧
        (∀ e : ℚ, 0 ≤ e → e ≤ floatOpsLow.pow10 ((-18 - 6 / 2) / 20) →
          20 * floatOpsLow.log10 (max e (1 / 10000000000)) ≤ -18 - 6 / 2) ∧
        (∀ x ∈ [(1 : ℚ) / 2], |x| ≤ floatOpsLow.pow10 ((-18 - 6 / 2) / 20)) ∧
        (∀ x ∈ [(1 : ℚ) / 2], |x| ≤ floatOpsLow.pow10 ((-18) / 20))) ∧
      compressorProcess floatOpsLow (-18) 2 30 200 6 0 44100 [1 / 2] = [(1 / 2, 0)] ∧
      simpleCompressorProcess floatOpsLow (-18) (5 / 2) 20 150 44100 [1 / 2] = [1 / 2] := by
  have h := C3_compressor_no_reduction_amended floatOpsLow (-18) 2 30 200 6 44100
    [1 / 2] [1 / 2] (-18) (5 / 2) 20 150 44100 (by norm_num) (by norm_num [floatOpsLow])
    (by norm_num [floatOpsLow]) (by norm_num [floatOpsLow]) (by norm_num [floatOpsLow])
    (by norm_num [floatOpsLow])
    (fun e _ _ => by norm_num [floatOpsLow])
    (by norm_num [floatOpsLow])
    (by intro x hx; simp only [List.mem_singleton] at hx; subst hx; norm_num [floatOpsLow, abs])
    (by norm_num [floatOpsLow]) (by norm_num [floatOpsLow]) (by norm_num [floatOpsLow])
    (by norm_num [floatOpsLow]) (by norm_num [floatOpsLow])
    (by intro x hx; simp only [List.mem_singleton] at hx; subst hx; norm_num [floatOpsLow, abs])
  refine ⟨⟨by norm_num, by norm_num [floatOpsLow], fun e _ _ => by norm_num [floatOpsLow],
      by intro x hx; simp only [List.mem_singleton] at hx; subst hx;
         norm_num [floatOpsLow, abs],
      by intro x hx; simp only [List.mem_singleton] at hx; subst hx;
         norm_num [floatOpsLow, abs]⟩, ?_, ?_⟩
  · simpa using h.1
  · simpa using h.2


/-! ## C4 -/

/-- C4 counterexample: for a fundamental of 70 Hz the browser optimizer's
high-pass frequency is `max(50, min(150, 49)) = 50`, not the 60 Hz floor the
claim asserts for both optimizers — `calculateSubtractiveEQ` clamps to a
50 Hz floor, not 60. -/
theorem C4_hpf_clamp_counterexample :
    (calculateSubtractiveEQ ⟨70, []⟩).highPassFreq = 50 ∧
      max 60 (min 150 ((70 : ℚ) * (7 / 10))) = 60 ∧ ((50 : ℚ) ≠ 60) := by
  refine ⟨?_, by norm_num [max_def, min_def], by norm_num⟩
  norm_num [calculateSubtractiveEQ]

/-- C4 (amended): the worker optimizer sets the subtractive-EQ high-pass
frequency to `clamp(60, 150, fundamental·0.7)`, as claimed, while the
browser optimizer (`ParameterOptimizer.calculateSubtractiveEQ`) uses the
same rule with a 50 Hz floor: `clamp(50, 150, fundamental·0.7)`. -/
theorem C4_hpf_clamp_amended (vocal : VocalAnalysis) (ref : Option ReferenceAnalysis)
    (userMacros : UserMacroState) (bv : BrowserVocalAnalysis) :
    (workerOptimize vocal ref userMacros).highPassFreq =
        max 60 (min 150 (vocal.fundamentalFreq * (7 / 10))) ∧
      (calculateSubtractiveEQ bv).highPassFreq =
        max 50 (min 150 (bv.fundamentalFreq * (7 / 10))) := by
  constructor
  · rfl
  · rfl

/-! ## C5 -/

/-- C5 counterexample: with a reference whose estimated wet level is 1 and a
reverb macro of 0 (so the macro-derived wet default is 0), the worker
optimizer's wet level is `0.3·1 + 0.7·0 = 0.3`, not the 50/50 blend `0.5`
the claim asserts. -/
theorem C5_reverb_blend_counterexample :
    (workerOptimize ⟨200, "C", "major", 30, -20, -10, 15, -10, -30, -30, 40, false, 0⟩
          (some ⟨[], 0, 1, -14, -20⟩) ⟨0, 0, 0, 0⟩).reverbWet = 3 / 10 ∧
      ((0 : ℚ) / 100 * (4 / 10)) * (1 / 2) + 1 * (1 / 2) = 1 / 2 ∧
      (3 : ℚ) / 10 ≠ 1 / 2 := by
  refine ⟨?_, by norm_num, by norm_num⟩
  norm_num [workerOptimize]

/-- C5 (amended): with a reference, the decay is the claimed 50/50 blend of
the 1.8 s default with the reference estimate, but the wet level is a 30/70
blend of the reference estimate with the macro-derived wet
(`(reverbAmount/100)·0.4`); without a reference the claim holds as stated:
wet `= (reverbAmount/100)·0.4` and decay stays 1.8. -/
theorem C5_reverb_blend_amended (vocal : VocalAnalysis) (r : ReferenceAnalysis)
    (userMacros : UserMacroState) :
    (workerOptimize vocal (some r) userMacros).reverbDecay =
        r.estimatedReverbDecay * (1 / 2) + (9 / 5) * (1 / 2) ∧
      (workerOptimize vocal (some r) userMacros).reverbWet =
        r.estimatedReverbWet * (3 / 10) +
          (userMacros.reverbAmount / 100 * (4 / 10)) * (7 / 10) ∧
      (workerOptimize vocal none userMacros).reverbDecay = 9 / 5 ∧
      (workerOptimize vocal none userMacros).reverbWet =
        userMacros.reverbAmount / 100 * (4 / 10) := by
  exact ⟨rfl, rfl, rfl, rfl⟩


/-! ## C6 -/

/-- Any circular pitch-class distance is at most 6 semitones. -/
theorem circDist_le_six (a b : ℚ) : circDist a b ≤ 6 := by
  unfold circDist
  rcases le_total |a - b| 6 with h | h
  · exact le_trans (min_le_left _ _) h
  · exact le_trans (min_le_right _ _) (by linarith)

/-- Specification of the `snapToScale` loop: either no scale note beat the
incoming accumulator, or the result is a scale note realizing the least
circular distance seen. -/
theorem snapGo_spec (n : ℚ) (notes : List ℤ) :
    ∀ a d : ℚ,
      (snapGo n notes (a, d) = (a, d) ∧ ∀ s ∈ notes, d ≤ circDist (s : ℚ) n) ∨
        ∃ c ∈ notes, snapGo n notes (a, d) = ((c : ℚ), circDist (c : ℚ) n) ∧
          circDist (c : ℚ) n < d ∧
          ∀ s ∈ notes, circDist (c : ℚ) n ≤ circDist (s : ℚ) n := by
  induction notes with
  | nil => intro a d; exact Or.inl ⟨rfl, by simp⟩
  | cons s rest ih =>
    intro a d
    by_cases hlt : min |(s : ℚ) - n| (12 - |(s : ℚ) - n|) < d
    · have hstep : snapGo n (s :: rest) (a, d) =
          snapGo n rest ((s : ℚ), min |(s : ℚ) - n| (12 - |(s : ℚ) - n|)) := by
        simp only [snapGo, if_pos hlt]
      rcases ih (s : ℚ) (min |(s : ℚ) - n| (12 - |(s : ℚ) - n|)) with ⟨heq, hmin⟩ |
        ⟨c, hc, heq, hlt', hmin⟩
      · refine Or.inr ⟨s, by simp, ?_, hlt, ?_⟩
        · rw [hstep, heq]; rfl
        · intro t ht
          rcases List.mem_cons.mp ht with rfl | ht
          · exact le_rfl
          · exact hmin t ht
      · refine Or.inr ⟨c, by simp [hc], ?_, lt_trans hlt' hlt, ?_⟩
        · rw [hstep, heq]
        · intro t ht
          rcases List.mem_cons.mp ht with rfl | ht
          · exact le_of_lt hlt'
          · exact hmin t ht
    · have hstep : snapGo n (s :: rest) (a, d) = snapGo n rest (a, d) := by
        simp only [snapGo, if_neg hlt]
      rcases ih a d with ⟨heq, hmin⟩ | ⟨c, hc, heq, hlt', hmin⟩
      · refine Or.inl ⟨by rw [hstep, heq], ?_⟩
        intro t ht
        rcases List.mem_cons.mp ht with rfl | ht
        · exact not_lt.mp hlt
        · exact hmin t ht
      · refine Or.inr ⟨c, by simp [hc], by rw [hstep, heq], hlt', ?_⟩
        intro t ht
        rcases List.mem_cons.mp ht with rfl | ht
        · exact le_trans (le_of_lt hlt') (not_lt.mp hlt)
        · exact hmin t ht

/-- The active scale's pitch-class list is never empty. -/
theorem updateScaleNotesList_ne_nil (key scale : ℤ) : updateScaleNotesList key scale ≠ [] := by
  unfold updateScaleNotesList scaleIntervals
  repeat' split
  all_goals simp

/-- C6 counterexample: with key C and the minor scale
(pitch classes `[0,2,3,5,7,8,10]`), the detected MIDI note 71 (B4) has
pitch class 11, whose nearest scale class under wraparound distance is 0
(distance 1); `snapToScale` keeps the input's octave number `⌊71/12⌋ = 5`
and returns `5·12 + 0 = 60` — 11 semitones below the input, far more than
the 6-semitone bound the claim asserts. -/
theorem C6_snap_to_scale_counterexample :
    updateScaleNotesList 0 1 = [0, 2, 3, 5, 7, 8, 10] ∧
      snapToScale (updateScaleNotesList 0 1) 71 = 60 ∧
      ¬ (|(60 : ℚ) - 71| ≤ 6) := by
  refine ⟨by norm_num [updateScaleNotesList, scaleIntervals], ?_, by norm_num [abs]⟩
  norm_num [snapToScale, updateScaleNotesList, scaleIntervals, snapGo, jsNoteInOctave, jsMod,
    jsTrunc, abs]

/-- C6 (amended): for every active key/scale and every detected MIDI note,
`snapToScale` returns `12·⌊midiNote/12⌋ + c` where `c` is a scale pitch
class at the least wraparound distance from the note's pitch class, and
that *pitch-class* distance is at most 6 semitones.  (The returned MIDI
note itself can be up to 11 semitones away, because the octave number is
taken from the input before snapping, as the counterexample shows.) -/
theorem C6_snap_to_scale_amended (key scale : ℤ) (midiNote : ℚ) :
    ∃ c ∈ updateScaleNotesList key scale,
      snapToScale (updateScaleNotesList key scale) midiNote =
          (⌊midiNote / 12⌋ : ℚ) * 12 + (c : ℚ) ∧
        (∀ s ∈ updateScaleNotesList key scale,
          circDist (c : ℚ) (jsNoteInOctave midiNote) ≤
            circDist (s : ℚ) (jsNoteInOctave midiNote)) ∧
        circDist (c : ℚ) (jsNoteInOctave midiNote) ≤ 6 := by
  rcases snapGo_spec (jsNoteInOctave midiNote) (updateScaleNotesList key scale)
      (jsNoteInOctave midiNote) 12 with ⟨_, hmin⟩ | ⟨c, hc, heq, _, hmin⟩
  · rcases List.exists_mem_of_ne_nil _ (updateScaleNotesList_ne_nil key scale) with ⟨s, hs⟩
    have h1 : (12 : ℚ) ≤ circDist (s : ℚ) (jsNoteInOctave midiNote) := hmin s hs
    have h2 := circDist_le_six (s : ℚ) (jsNoteInOctave midiNote)
    linarith
  · refine ⟨c, hc, ?_, hmin, circDist_le_six _ _⟩
    simp only [snapToScale]
    rw [heq]

/-! ## C7 -/

/-- `getD` after `set` at a different index. -/
theorem getD_set_ne (l : List ℚ) (m j : ℕ) (a : ℚ) (h : m ≠ j) :
    (l.set m a).getD j 0 = l.getD j 0 := by
  simp [List.getD_eq_getElem?_getD, List.getElem?_set, h]

/-- `getD` after `set` at the same (in-bounds) index. -/
theorem getD_set_self (l : List ℚ) (j : ℕ) (a : ℚ) (h : j < l.length) :
    (l.set j a).getD j 0 = a := by
  simp [List.getD_eq_getElem?_getD, List.getElem?_set, h]

/-- `maskWriteRange` preserves the mask length. -/
theorem maskWriteRange_length (f : ℤ → ℚ) :
    ∀ (count : ℕ) (i : ℤ) (mask : List ℚ),
      (maskWriteRange f count i mask).length = mask.length := by
  intro count
  induction count with
  | zero => intro i mask; rfl
  | succ c ih =>
    intro i mask
    simp only [maskWriteRange, ih]
    split <;> simp

/-- Indices outside the written range are untouched by `maskWriteRange`. -/
theorem maskWriteRange_getD_outside (f : ℤ → ℚ) :
    ∀ (count : ℕ) (i : ℤ) (mask : List ℚ) (j : ℕ),
      ((j : ℤ) < i ∨ i + count ≤ (j : ℤ)) →
      (maskWriteRange f count i mask).getD j 0 = mask.getD j 0 := by
  intro count
  induction count with
  | zero => intro i mask j _; rfl
  | succ c ih =>
    intro i mask j hj
    simp only [maskWriteRange]
    rw [ih (i + 1) (if 0 ≤ i then mask.set i.toNat (f i) else mask) j (by omega)]
    split
    · next hi => exact getD_set_ne _ _ _ _ (by omega)
    · rfl

/-- Indices inside the written range read back the written gain. -/
theorem maskWriteRange_getD_inside (f : ℤ → ℚ) :
    ∀ (count : ℕ) (i : ℤ) (mask : List ℚ) (j : ℕ),
      i ≤ (j : ℤ) → (j : ℤ) < i + count → j < mask.length →
      (maskWriteRange f count i mask).getD j 0 = f j := by
  intro count
  induction count with
  | zero => intro i mask j h1 h2 _; omega
  | succ c ih =>
    intro i mask j h1 h2 hlen
    simp only [maskWriteRange]
    by_cases hij : i = (j : ℤ)
    · rw [if_pos (by omega)]
      rw [maskWriteRange_getD_outside f c (i + 1) _ j (by omega)]
      rw [show i.toNat = j by omega]
      rw [getD_set_self _ _ _ hlen, hij]
    · rw [ih (i + 1) _ j (by omega) (by omega) (by split <;> simp [hlen])]

/-- A single `chorusMaskStep` leaves any index outside the section's sample
range unchanged. -/
theorem chorusMaskStep_getD_outside (fade : ℤ) (n : ℕ) (mask : List ℚ) (t : SongSection)
    (j : ℕ) (h : ¬(t.start ≤ (j : ℤ) ∧ (j : ℤ) < t.endIdx)) :
    (chorusMaskStep fade n mask t).getD j 0 = mask.getD j 0 := by
  unfold chorusMaskStep
  split
  · apply maskWriteRange_getD_outside
    push_neg at h
    omega
  · rfl

/-- A fold of `chorusMaskStep`s over sections none of which covers `j` (as
a chorus) leaves index `j` unchanged. -/
theorem chorusMask_foldl_getD_outside (fade : ℤ) (n : ℕ) (j : ℕ) :
    ∀ (sections : List SongSection) (mask : List ℚ),
      (∀ s ∈ sections, s.type = SectionType.chorus →
        ¬(s.start ≤ (j : ℤ) ∧ (j : ℤ) < s.endIdx)) →
      (sections.foldl (chorusMaskStep fade n) mask).getD j 0 = mask.getD j 0 := by
  intro sections
  induction sections with
  | nil => intro mask _; rfl
  | cons t rest ih =>
    intro mask hall
    rw [List.foldl_cons, ih _ fun s hs => hall s (List.mem_cons_of_mem t hs)]
    by_cases ht : t.type = SectionType.chorus
    · exact chorusMaskStep_getD_outside fade n mask t j (hall t (by simp) ht)
    · simp [chorusMaskStep, ht]

/-- `chorusMaskStep` preserves mask length. -/
theorem chorusMaskStep_length (fade : ℤ) (n : ℕ) (mask : List ℚ) (t : SongSection) :
    (chorusMaskStep fade n mask t).length = mask.length := by
  unfold chorusMaskStep
  split
  · exact maskWriteRange_length _ _ _ _
  · rfl

/-- Folding `chorusMaskStep` preserves mask length. -/
theorem chorusMask_foldl_length (fade : ℤ) (n : ℕ) :
    ∀ (sections : List SongSection) (mask : List ℚ),
      (sections.foldl (chorusMaskStep fade n) mask).length = mask.length := by
  intro sections
  induction sections with
  | nil => intro mask; rfl
  | cons t rest ih => intro mask; rw [List.foldl_cons, ih, chorusMaskStep_length]

/-- Two sections with disjoint sample ranges. -/
def SectDisjoint (s t : SongSection) : Prop :=
  s.endIdx ≤ t.start ∨ t.endIdx ≤ s.start

/-- In a pairwise-disjoint section list, the mask value at an index covered
by a chorus section is exactly that section's per-index gain. -/
theorem chorusMask_foldl_getD_inside (fade : ℤ) (n : ℕ) (j : ℕ) :
    ∀ (sections : List SongSection) (mask : List ℚ),
      mask.length = n → sections.Pairwise SectDisjoint →
      ∀ s ∈ sections, s.type = SectionType.chorus →
        s.start ≤ (j : ℤ) → (j : ℤ) < min s.endIdx (n : ℤ) →
        (sections.foldl (chorusMaskStep fade n) mask).getD j 0 =
          chorusGainAt fade s.start s.endIdx j := by
  intro sections
  induction sections with
  | nil => intro mask _ _ s hs; cases hs
  | cons t rest ih =>
    intro mask hlen hpw s hs hchorus hj1 hj2
    have hpw' := (List.pairwise_cons.mp hpw)
    rw [List.foldl_cons]
    rcases List.mem_cons.mp hs with rfl | hs'
    · -- the head section covers j; the rest are disjoint from it
      rw [chorusMask_foldl_getD_outside fade n j rest _ ?_]
      · unfold chorusMaskStep
        rw [if_pos hchorus]
        exact maskWriteRange_getD_inside _ _ _ _ _ hj1 (by omega) (by omega)
      · intro r hr _
        have hdis := hpw'.1 r hr
        unfold SectDisjoint at hdis
        omega
    · -- the head section is disjoint from s, which covers j
      have hdis := hpw'.1 s hs'
      unfold SectDisjoint at hdis
      rw [ih (chorusMaskStep fade n mask t) (by rw [chorusMaskStep_length, hlen]) hpw'.2
        s hs' hchorus hj1 hj2]

/-- The per-index chorus gain lies in `[0, 1]` for indices inside the
section, provided the fade length is at least one sample. -/
theorem chorusGainAt_mem_Icc (fade start endIdx i : ℤ) (hfade : 1 ≤ fade)
    (h1 : start ≤ i) (h2 : i < endIdx) :
    0 ≤ chorusGainAt fade start endIdx i ∧ chorusGainAt fade start endIdx i ≤ 1 := by
  unfold chorusGainAt
  have hfq : (0 : ℚ) < ((fade : ℤ) : ℚ) := by exact_mod_cast (by omega : (0 : ℤ) < fade)
  by_cases hout : endIdx - i < fade
  · simp only [if_pos hout]
    constructor
    · exact div_nonneg (by exact_mod_cast (by omega : (0 : ℤ) ≤ endIdx - i)) hfq.le
    · rw [div_le_one hfq]
      exact_mod_cast le_of_lt hout
  · simp only [if_neg hout]
    by_cases hin : i - start < fade
    · simp only [if_pos hin]
      constructor
      · exact div_nonneg (by exact_mod_cast (by omega : (0 : ℤ) ≤ i - start)) hfq.le
      · rw [div_le_one hfq]
        exact_mod_cast le_of_lt hin
    · simp only [if_neg hin]
      norm_num

/-- Writing per-index chorus gains keeps every mask entry in `[0, 1]`. -/
theorem maskWriteRange_bounds (f : ℤ → ℚ) :
    ∀ (count : ℕ) (i : ℤ) (mask : List ℚ),
      (∀ k : ℤ, i ≤ k → k < i + count → 0 ≤ f k ∧ f k ≤ 1) →
      (∀ j : ℕ, 0 ≤ mask.getD j 0 ∧ mask.getD j 0 ≤ 1) →
      ∀ j : ℕ, 0 ≤ (maskWriteRange f count i mask).getD j 0 ∧
        (maskWriteRange f count i mask).getD j 0 ≤ 1 := by
  intro count
  induction count with
  | zero => intro i mask _ hmask j; exact hmask j
  | succ c ih =>
    intro i mask hf hmask j
    simp only [maskWriteRange]
    apply ih (i + 1) _ (fun k hk1 hk2 => hf k (by omega) (by omega))
    intro j'
    split
    · next hi =>
      by_cases hj' : i.toNat = j'
      · by_cases hlt : j' < mask.length
        · rw [← hj', getD_set_self _ _ _ (hj' ▸ hlt)]
          exact hf i le_rfl (by omega)
        · rw [List.getD_eq_getElem?_getD]
          rw [List.getElem?_eq_none (by simpa using not_lt.mp hlt)]
          norm_num
      · rw [getD_set_ne _ _ _ _ hj']
        exact hmask j'
    · exact hmask j'

/-- A step of the chorus-mask fold keeps every entry in `[0, 1]`. -/
theorem chorusMaskStep_bounds (fade : ℤ) (n : ℕ) (mask : List ℚ) (t : SongSection)
    (hfade : 1 ≤ fade) (hmask : ∀ j : ℕ, 0 ≤ mask.getD j 0 ∧ mask.getD j 0 ≤ 1) :
    ∀ j : ℕ, 0 ≤ (chorusMaskStep fade n mask t).getD j 0 ∧
      (chorusMaskStep fade n mask t).getD j 0 ≤ 1 := by
  unfold chorusMaskStep
  split
  · exact maskWriteRange_bounds _ _ _ _
      (fun k hk1 hk2 => chorusGainAt_mem_Icc fade t.start t.endIdx k hfade hk1 (by omega))
      hmask
  · exact hmask

/-- Folding chorus-mask steps keeps every entry in `[0, 1]`. -/
theorem chorusMask_foldl_bounds (fade : ℤ) (n : ℕ) (hfade : 1 ≤ fade) :
    ∀ (sections : List SongSection) (mask : List ℚ),
      (∀ j : ℕ, 0 ≤ mask.getD j 0 ∧ mask.getD j 0 ≤ 1) →
      ∀ j : ℕ, 0 ≤ (sections.foldl (chorusMaskStep fade n) mask).getD j 0 ∧
        (sections.foldl (chorusMaskStep fade n) mask).getD j 0 ≤ 1 := by
  intro sections
  induction sections with
  | nil => intro mask hmask j; exact hmask j
  | cons t rest ih =>
    intro mask hmask j
    rw [List.foldl_cons]
    exact ih _ (chorusMaskStep_bounds fade n mask t hfade hmask) j

/-- C7 counterexample: the claim fails for general section lists on two
counts.  (1) With overlapping chorus sections `[0,40)` and `[15,16)` (at
sample rate 100, fade length 10), sample 15 lies in the *interior* of the
first chorus section (≥ 10 samples from both ends) yet the mask reads
`1/10`, not 1, because the later section's fade overwrote it.  (2) With a
single short chorus section `[0,15)`, sample 6 lies in the first 100 ms, yet
the mask reads the fade-out value `9/10` instead of the claimed linear
fade-in value `6/10` — the fade-out assignment wins where the fades
overlap. -/
theorem C7_chorus_mask_counterexample :
    ((createChorusMask 100 [⟨0, 40, SectionType.chorus, 0, false⟩,
          ⟨15, 16, SectionType.chorus, 0, false⟩] 40).getD 15 0 = 1 / 10 ∧
        (10 : ℤ) ≤ 15 - 0 ∧ (10 : ℤ) ≤ 40 - 15 ∧ ((1 : ℚ) / 10 ≠ 1)) ∧
      ((createChorusMask 100 [⟨0, 15, SectionType.chorus, 0, false⟩] 20).getD 6 0 = 9 / 10 ∧
        (6 : ℤ) - 0 < 10 ∧ ((9 : ℚ) / 10 ≠ ((6 : ℤ) : ℚ) / ((10 : ℤ) : ℚ))) := by
  refine ⟨⟨?_, by norm_num, by norm_num, by norm_num⟩, ?_, by norm_num, by norm_num⟩
  · norm_num [createChorusMask, chorusMaskStep, maskWriteRange, chorusGainAt]
    simp [List.getD_eq_getElem?_getD, List.getElem?_set, List.getElem?_replicate]
  · norm_num [createChorusMask, chorusMaskStep, maskWriteRange, chorusGainAt]
    simp [List.getD_eq_getElem?_getD, List.getElem?_set, List.getElem?_replicate]

/-- C7 (amended): for any section list the mask has the requested length
with every value in `[0,1]` (given ≥ 1 fade sample, i.e. sample rate ≥ 10),
and is 0 at every sample no chorus section covers.  When the sections are
pairwise disjoint — as `SectionDetector.detect` produces — every sample of a
chorus section reads that section's gain: `(end-i)/fade` in the last 100 ms,
else `(i-start)/fade` in the first 100 ms, else 1; the fade-out takes
precedence over the fade-in for sections shorter than 200 ms (per the
counterexample), and interior samples ≥ `fade` from both ends read exactly
1. -/
theorem C7_chorus_mask_amended (sampleRate : ℚ) (sections : List SongSection) (n : ℕ)
    (hfade : 1 ≤ ⌊sampleRate * (1 / 10)⌋) (hdisj : sections.Pairwise SectDisjoint) :
    (createChorusMask sampleRate sections n).length = n ∧
      (∀ j : ℕ, 0 ≤ (createChorusMask sampleRate sections n).getD j 0 ∧
        (createChorusMask sampleRate sections n).getD j 0 ≤ 1) ∧
      (∀ j : ℕ, (∀ s ∈ sections, s.type = SectionType.chorus →
          ¬(s.start ≤ (j : ℤ) ∧ (j : ℤ) < s.endIdx)) →
        (createChorusMask sampleRate sections n).getD j 0 = 0) ∧
      ∀ s ∈ sections, s.type = SectionType.chorus →
        ∀ j : ℕ, s.start ≤ (j : ℤ) → (j : ℤ) < min s.endIdx (n : ℤ) →
          ((createChorusMask sampleRate sections n).getD j 0 =
              chorusGainAt ⌊sampleRate * (1 / 10)⌋ s.start s.endIdx j ∧
            (s.endIdx - (j : ℤ) < ⌊sampleRate * (1 / 10)⌋ →
              (createChorusMask sampleRate sections n).getD j 0 =
                ((s.endIdx - (j : ℤ) : ℤ) : ℚ) / ((⌊sampleRate * (1 / 10)⌋ : ℤ) : ℚ)) ∧
            ((j : ℤ) - s.start < ⌊sampleRate * (1 / 10)⌋ →
              ⌊sampleRate * (1 / 10)⌋ ≤ s.endIdx - (j : ℤ) →
              (createChorusMask sampleRate sections n).getD j 0 =
                (((j : ℤ) - s.start : ℤ) : ℚ) / ((⌊sampleRate * (1 / 10)⌋ : ℤ) : ℚ)) ∧
            (⌊sampleRate * (1 / 10)⌋ ≤ (j : ℤ) - s.start →
              ⌊sampleRate * (1 / 10)⌋ ≤ s.endIdx - (j : ℤ) →
              (createChorusMask sampleRate sections n).getD j 0 = 1)) := by
  refine ⟨?_, ?_, ?_, ?_⟩
  · unfold createChorusMask
    rw [chorusMask_foldl_length, List.length_replicate]
  · unfold createChorusMask
    apply chorusMask_foldl_bounds _ _ hfade
    intro j
    rcases lt_or_le j n with h | h
    · simp [List.getD_eq_getElem?_getD, List.getElem?_replicate, h]
    · rw [List.getD_eq_getElem?_getD, List.getElem?_eq_none (by simpa using h)]
      norm_num
  · intro j h
    unfold createChorusMask
    rw [chorusMask_foldl_getD_outside _ _ _ _ _ h]
    rcases lt_or_le j n with hlt | hle
    · simp [List.getD_eq_getElem?_getD, List.getElem?_replicate, hlt]
    · rw [List.getD_eq_getElem?_getD, List.getElem?_eq_none (by simpa using hle)]
      rfl
  · intro s hs hchorus j hj1 hj2
    have hval : (createChorusMask sampleRate sections n).getD j 0 =
        chorusGainAt ⌊sampleRate * (1 / 10)⌋ s.start s.endIdx j := by
      unfold createChorusMask
      exact chorusMask_foldl_getD_inside _ _ _ sections _ (List.length_replicate _ _) hdisj
        s hs hchorus hj1 hj2
    refine ⟨hval, ?_, ?_, ?_⟩
    · intro hout
      rw [hval]
      unfold chorusGainAt
      rw [if_pos hout]
    · intro hin hout
      rw [hval]
      unfold chorusGainAt
      rw [if_neg (not_lt.mpr hout), if_pos hin]
    · intro hin hout
      rw [hval]
      unfold chorusGainAt
      rw [if_neg (not_lt.mpr hout), if_neg (not_lt.mpr hin)]

/-- Witness for the amended C7: a single 40-sample chorus section at sample
rate 100 (fade length 10) over a 40-sample mask. -/
theorem C7_chorus_mask_amended_witness :
    ((1 : ℤ) ≤ ⌊(100 : ℚ) * (1 / 10)⌋ ∧
        ([⟨0, 40, SectionType.chorus, 0, false⟩] : List SongSection).Pairwise SectDisjoint) ∧
      ((createChorusMask 100 [⟨0, 40, SectionType.chorus, 0, false⟩] 40).length = 40 ∧
        (∀ j : ℕ, 0 ≤ (createChorusMask 100 [⟨0, 40, SectionType.chorus, 0, false⟩] 40).getD j 0 ∧
          (createChorusMask 100 [⟨0, 40, SectionType.chorus, 0, false⟩] 40).getD j 0 ≤ 1) ∧
        (∀ j : ℕ, (∀ s ∈ ([⟨0, 40, SectionType.chorus, 0, false⟩] : List SongSection),
            s.type = SectionType.chorus → ¬(s.start ≤ (j : ℤ) ∧ (j : ℤ) < s.endIdx)) →
          (createChorusMask 100 [⟨0, 40, SectionType.chorus, 0, false⟩] 40).getD j 0 = 0) ∧
        ∀ s ∈ ([⟨0, 40, SectionType.chorus, 0, false⟩] : List SongSection),
          s.type = SectionType.chorus →
          ∀ j : ℕ, s.start ≤ (j : ℤ) → (j : ℤ) < min s.endIdx (40 : ℤ) →
            ((createChorusMask 100 [⟨0, 40, SectionType.chorus, 0, false⟩] 40).getD j 0 =
                chorusGainAt ⌊(100 : ℚ) * (1 / 10)⌋ s.start s.endIdx j ∧
              (s.endIdx - (j : ℤ) < ⌊(100 : ℚ) * (1 / 10)⌋ →
                (createChorusMask 100 [⟨0, 40, SectionType.chorus, 0, false⟩] 40).getD j 0 =
                  ((s.endIdx - (j : ℤ) : ℤ) : ℚ) / ((⌊(100 : ℚ) * (1 / 10)⌋ : ℤ) : ℚ)) ∧
              ((j : ℤ) - s.start < ⌊(100 : ℚ) * (1 / 10)⌋ →
                ⌊(100 : ℚ) * (1 / 10)⌋ ≤ s.endIdx - (j : ℤ) →
                (createChorusMask 100 [⟨0, 40, SectionType.chorus, 0, false⟩] 40).getD j 0 =
                  (((j : ℤ) - s.start : ℤ) : ℚ) / ((⌊(100 : ℚ) * (1 / 10)⌋ : ℤ) : ℚ)) ∧
              (⌊(100 : ℚ) * (1 / 10)⌋ ≤ (j : ℤ) - s.start →
                ⌊(100 : ℚ) * (1 / 10)⌋ ≤ s.endIdx - (j : ℤ) →
                (createChorusMask 100 [⟨0, 40, SectionType.chorus, 0, false⟩] 40).getD j 0 =
                  1))) :=
  ⟨⟨by norm_num, by simp⟩,
    C7_chorus_mask_amended 100 [⟨0, 40, SectionType.chorus, 0, false⟩] 40 (by norm_num)
      (by simp)⟩

/-! ## C8 -/

/-- Reading an all-zero buffer always yields 0. -/
theorem getD_replicate_zero (n i : ℕ) : (List.replicate n (0 : ℚ)).getD i 0 = 0 := by
  rcases lt_or_le i n with h | h
  · simp [List.getD_eq_getElem?_getD, List.getElem?_replicate, h]
  · rw [List.getD_eq_getElem?_getD, List.getElem?_eq_none (by simpa using h)]
    rfl

/-- All YIN squared differences vanish on silence. -/
theorem yinDiff_replicate_zero (n tau : ℕ) : yinDiff (List.replicate n 0) tau = 0 := by
  unfold yinDiff
  apply List.sum_eq_zero
  intro x hx
  rcases List.mem_map.mp hx with ⟨i, _, rfl⟩
  rw [getD_replicate_zero, getD_replicate_zero]
  ring

/-- The whole CMNDF vanishes on silence (`0/0 = 0` in the rational model;
in JS the entries are `NaN`, and in both cases no lag is accepted). -/
theorem yinCmndf_replicate_zero (n tau : ℕ) : yinCmndf (List.replicate n 0) tau = 0 := by
  unfold yinCmndf
  split
  · rfl
  · rw [yinDiff_replicate_zero, zero_div]

/-- C8: per-frame YIN pitch detection returns frequency 0 on an all-zero
buffer (no lag passes the strict local-minimum test), and `analyzePitch`
completes without error on silence, returning the safe defaults:
fundamental 200 Hz, key C major, deviation 30 cents. -/
theorem C8_silence_defaults (F : FloatOps) (sampleRate : ℚ) (n : ℕ) :
    detectPitchYIN sampleRate (List.replicate n 0) = 0 ∧
      analyzePitch F sampleRate (List.replicate n 0) =
        { fundamentalFreq := 200, detectedKey := "C", detectedScale := "major",
          avgPitchDeviation := 30 } := by
  have hdetect : ∀ m : ℕ, detectPitchYIN sampleRate (List.replicate m 0) = 0 := by
    intro m
    simp only [detectPitchYIN]
    rw [List.find?_eq_none.mpr (fun tau _ => by norm_num [yinCmndf_replicate_zero])]
  refine ⟨hdetect n, ?_⟩
  unfold analyzePitch
  rw [if_pos]
  unfold analyzePitchFrames
  apply List.filter_eq_nil_iff.mpr
  intro freq hfreq
  rcases List.mem_map.mp hfreq with ⟨s, _, rfl⟩
  rw [List.drop_replicate, List.take_replicate, hdetect]
  simp

/-! ## C9 -/

/-- Recomposing a 16-bit little-endian value. -/
theorem u16_recompose (v : ℕ) (h : v < 65536) : v % 256 + 256 * (v / 256 % 256) = v := by
  omega

/-- Recomposing a 32-bit little-endian value. -/
theorem u32_recompose (v : ℕ) (h : v < 4294967296) :
    v % 256 + 256 * (v / 256 % 256) + 65536 * (v / 65536 % 256) +
      16777216 * (v / 16777216 % 256) = v := by
  omega

/-- `readInt16LE` inverts `writeInt16LE` on in-range values. -/
theorem int16_roundtrip (v : ℤ) (h1 : -32768 ≤ v) (h2 : v ≤ 32767) :
    readInt16LE (int16Bytes v) 0 = v := by
  unfold readInt16LE int16Bytes u16Bytes readUInt16LE
  simp only [List.getD_cons_zero, List.getD_cons_succ]
  split <;> omega

/-- The sample encoder always produces two bytes. -/
theorem int16Bytes_length (v : ℤ) : (int16Bytes v).length = 2 := rfl

/-- The clamped sample stays in `[-1, 1]`. -/
theorem clamp_mem (s : ℚ) : -1 ≤ max (-1) (min 1 s) ∧ max (-1) (min 1 s) ≤ 1 :=
  ⟨le_max_left _ _, max_le (by norm_num) (min_le_left _ _)⟩

/-- The rounded 16-bit code of a clamped sample is in range. -/
theorem jsRound_sample_range (x : ℚ) (h1 : -1 ≤ x) (h2 : x ≤ 1) :
    -32768 ≤ jsRound (x * 32767) ∧ jsRound (x * 32767) ≤ 32767 := by
  unfold jsRound
  constructor
  · have : ((-32768 : ℤ) : ℚ) ≤ x * 32767 + 1 / 2 := by nlinarith
    exact Int.le_floor.mpr this
  · have h : x * 32767 + 1 / 2 < ((32768 : ℤ) : ℚ) := by nlinarith
    have h3 := Int.floor_lt.mpr h
    omega

/-- The sample stream has two bytes per sample. -/
theorem flatMap_encodeSample_length (pcm : List ℚ) :
    (pcm.flatMap encodeSample).length = 2 * pcm.length := by
  induction pcm with
  | nil => rfl
  | cons p rest ih =>
    simp only [List.flatMap_cons, List.length_append, ih, List.length_cons]
    rw [show (encodeSample p).length = 2 from rfl]
    ring

/-- Reading sample `i`'s two bytes out of the flattened stream. -/
theorem flatMap_encodeSample_getD (pcm : List ℚ) :
    ∀ i : ℕ, i < pcm.length →
      (pcm.flatMap encodeSample).getD (i * 2) 0 =
          (encodeSample (pcm.getD i 0)).getD 0 0 ∧
        (pcm.flatMap encodeSample).getD (i * 2 + 1) 0 =
          (encodeSample (pcm.getD i 0)).getD 1 0 := by
  induction pcm with
  | nil => intro i hi; cases hi
  | cons p rest ih =>
    intro i hi
    rcases Nat.eq_zero_or_pos i with rfl | hpos
    · constructor
      · rw [List.flatMap_cons,
          List.getD_append _ _ _ _ (by rw [show (encodeSample p).length = 2 from rfl]; omega)]
        rfl
      · rw [List.flatMap_cons,
          List.getD_append _ _ _ _ (by rw [show (encodeSample p).length = 2 from rfl]; omega)]
        rfl
    · obtain ⟨i', rfl⟩ : ∃ i', i = i' + 1 := ⟨i - 1, by omega⟩
      have h2 : (encodeSample p).length = 2 := rfl
      constructor
      · rw [List.flatMap_cons, List.getD_append_right _ _ _ _ (by omega), h2,
          show (i' + 1) * 2 - 2 = i' * 2 by ring_nf; omega]
        exact ((ih i' (by simpa using hi)).1).trans (by rfl)
      · rw [List.flatMap_cons, List.getD_append_right _ _ _ _ (by omega), h2,
          show (i' + 1) * 2 + 1 - 2 = i' * 2 + 1 by ring_nf; omega]
        exact ((ih i' (by simpa using hi)).2).trans (by rfl)

/-- One unfolding of the chunk-scan loop. -/
theorem chunkScan_succ (buf : List ℕ) (fuel offset : ℕ) (f d : Option (ℕ × ℕ)) :
    chunkScan buf (fuel + 1) offset f d =
      if offset < buf.length - 8 then
        chunkScan buf fuel
          (offset + 8 + readUInt32LE buf (offset + 4) +
            (if readUInt32LE buf (offset + 4) % 2 ≠ 0 then 1 else 0))
          (if (buf.drop offset).take 4 = fmtTag then
            some (offset + 8, readUInt32LE buf (offset + 4)) else f)
          (if (buf.drop offset).take 4 = dataTag then
            some (offset + 8, readUInt32LE buf (offset + 4)) else d)
      else (f, d) := rfl

/-- The encoder's output, spelled out byte by byte. -/
theorem encodeWavBytes_eq_cons (pcm : List ℚ) (sr ch : ℕ) :
    encodeWavBytes pcm sr ch =
      82 :: 73 :: 70 :: 70 ::
      ((36 + pcm.length * 2) % 256) :: ((36 + pcm.length * 2) / 256 % 256) ::
      ((36 + pcm.length * 2) / 65536 % 256) :: ((36 + pcm.length * 2) / 16777216 % 256) ::
      87 :: 65 :: 86 :: 69 ::
      102 :: 109 :: 116 :: 32 :: 16 :: 0 :: 0 :: 0 ::
      1 :: 0 :: (ch % 256) :: (ch / 256 % 256) ::
      (sr % 256) :: (sr / 256 % 256) :: (sr / 65536 % 256) :: (sr / 16777216 % 256) ::
      ((sr * ch * 2) % 256) :: ((sr * ch * 2) / 256 % 256) ::
      ((sr * ch * 2) / 65536 % 256) :: ((sr * ch * 2) / 16777216 % 256) ::
      ((ch * 2) % 256) :: ((ch * 2) / 256 % 256) :: 16 :: 0 ::
      100 :: 97 :: 116 :: 97 ::
      ((pcm.length * 2) % 256) :: ((pcm.length * 2) / 256 % 256) ::
      ((pcm.length * 2) / 65536 % 256) :: ((pcm.length * 2) / 16777216 % 256) ::
      pcm.flatMap encodeSample := by
  norm_num [encodeWavBytes, riffTag, waveTag, fmtTag, dataTag, u16Bytes, u32Bytes]

/-- The encoder's buffer length. -/
theorem encodeWavBytes_length (pcm : List ℚ) (sr ch : ℕ) :
    (encodeWavBytes pcm sr ch).length = 44 + 2 * pcm.length := by
  rw [encodeWavBytes_eq_cons]
  simp only [List.length_cons, flatMap_encodeSample_length]
  omega

/-- Scanning the encoder's output finds the `fmt ` chunk at payload offset
20 (size 16) and the `data` chunk at payload offset 44. -/
theorem chunkScan_encodeWav (pcm : List ℚ) (sr ch : ℕ) (hne : pcm ≠ [])
    (hlen : 36 + 2 * pcm.length < 4294967296) :
    chunkScan (encodeWavBytes pcm sr ch) (encodeWavBytes pcm sr ch).length 12 none none =
      (some (20, 16), some (44, pcm.length * 2)) := by
  have hbuf := encodeWavBytes_eq_cons pcm sr ch
  have hblen := encodeWavBytes_length pcm sr ch
  have hL : 1 ≤ pcm.length := List.length_pos.mpr hne
  have hid12 : ((encodeWavBytes pcm sr ch).drop 12).take 4 = fmtTag := by rw [hbuf]; rfl
  have hsz12 : readUInt32LE (encodeWavBytes pcm sr ch) 16 = 16 := by rw [hbuf]; rfl
  have hid36 : ((encodeWavBytes pcm sr ch).drop 36).take 4 = dataTag := by rw [hbuf]; rfl
  have hb40 : (encodeWavBytes pcm sr ch).getD 40 0 = (pcm.length * 2) % 256 := by rw [hbuf]; rfl
  have hb41 : (encodeWavBytes pcm sr ch).getD 41 0 = (pcm.length * 2) / 256 % 256 := by
    rw [hbuf]; rfl
  have hb42 : (encodeWavBytes pcm sr ch).getD 42 0 = (pcm.length * 2) / 65536 % 256 := by
    rw [hbuf]; rfl
  have hb43 : (encodeWavBytes pcm sr ch).getD 43 0 = (pcm.length * 2) / 16777216 % 256 := by
    rw [hbuf]; rfl
  have hsz36 : readUInt32LE (encodeWavBytes pcm sr ch) 40 = pcm.length * 2 := by
    unfold readUInt32LE
    rw [show (40 : ℕ) + 1 = 41 from rfl, show (40 : ℕ) + 2 = 42 from rfl,
      show (40 : ℕ) + 3 = 43 from rfl, hb40, hb41, hb42, hb43]
    exact u32_recompose _ (by omega)
  obtain ⟨k, hk⟩ : ∃ k, (encodeWavBytes pcm sr ch).length = (k + 1) + 1 :=
    ⟨42 + 2 * pcm.length, by omega⟩
  rw [hk, chunkScan_succ,
    if_pos (show 12 < (encodeWavBytes pcm sr ch).length - 8 by omega),
    show (12 : ℕ) + 4 = 16 from rfl, hsz12, hid12]
  rw [if_pos rfl, if_neg (by decide : ¬ fmtTag = dataTag)]
  rw [show 12 + 8 + 16 + (if (16 : ℕ) % 2 ≠ 0 then 1 else 0) = 36 by norm_num,
    chunkScan_succ,
    if_pos (show 36 < (encodeWavBytes pcm sr ch).length - 8 by omega),
    show (36 : ℕ) + 4 = 40 from rfl, hsz36, hid36]
  rw [if_neg (by decide : ¬ dataTag = fmtTag), if_pos rfl]
  have hpad : (if pcm.length * 2 % 2 ≠ 0 then 1 else 0) = 0 := by
    simp [Nat.mul_mod_left]
  rw [show 36 + 8 + pcm.length * 2 + (if pcm.length * 2 % 2 ≠ 0 then 1 else 0) =
      44 + 2 * pcm.length by rw [hpad]; omega]
  rcases k with _ | k'
  · rfl
  · rw [chunkScan_succ, if_neg (by omega)]

/-- C9 (amended): for nonempty PCM whose samples lie in `[-1, 1]`, when
every header field fits its write — sample rate below `2^32`, block align
`channels·2` below `2^16`, byte rate `sampleRate·channels·2` and RIFF size
`36 + 2·length` below `2^32` — `encodeWav` returns a buffer (outside these
bounds the `Buffer.writeUIntNLE` calls throw `ERR_OUT_OF_RANGE`, per the
counterexample's part 3), decoding it returns the sample rate and channel
count exactly, and each decoded sample is `round(x*32767)/32768` — within
`3/65536` of the original `x` (1.5 quantization steps; not `1/32768`, per
the counterexample: the encoder scales by 32767, the decoder divides by
32768). -/
theorem C9_wav_roundtrip_amended (pcm : List ℚ) (sampleRate channels : ℕ)
    (hne : pcm ≠ []) (hsr : sampleRate < 4294967296) (hch : channels * 2 < 65536)
    (hbr : sampleRate * channels * 2 < 4294967296)
    (hlen : 36 + 2 * pcm.length < 4294967296)
    (hin : ∀ x ∈ pcm, |x| ≤ 1) :
    encodeWav pcm sampleRate channels = some (encodeWavBytes pcm sampleRate channels) ∧
      decodeWav (encodeWavBytes pcm sampleRate channels) =
        some { sampleRate := sampleRate, channels := channels, bitsPerSample := 16,
               data := (List.range pcm.length).map fun i =>
                 ((jsRound (max (-1) (min 1 (pcm.getD i 0)) * 32767) : ℤ) : ℚ) / 32768 } ∧
      ∀ i : ℕ, i < pcm.length →
        |((jsRound (max (-1) (min 1 (pcm.getD i 0)) * 32767) : ℤ) : ℚ) / 32768 -
            pcm.getD i 0| ≤ 3 / 65536 := by
  have hbuf := encodeWavBytes_eq_cons pcm sampleRate channels
  refine ⟨?_, ?_, ?_⟩
  · unfold encodeWav
    rw [if_pos ⟨by omega, by omega, hsr, hbr, hch, by omega⟩]
  · have h1 : (encodeWavBytes pcm sampleRate channels).take 4 = riffTag := by rw [hbuf]; rfl
    have h2 : ((encodeWavBytes pcm sampleRate channels).drop 8).take 4 = waveTag := by
      rw [hbuf]; rfl
    have haf : readUInt16LE (((encodeWavBytes pcm sampleRate channels).drop 20).take 16) 0 = 1 := by
      rw [hbuf]; rfl
    have hchv : readUInt16LE (((encodeWavBytes pcm sampleRate channels).drop 20).take 16) 2 =
        channels := by
      rw [hbuf]; exact u16_recompose channels (by omega)
    have hsrv : readUInt32LE (((encodeWavBytes pcm sampleRate channels).drop 20).take 16) 4 =
        sampleRate := by
      rw [hbuf]; exact u32_recompose sampleRate hsr
    have hbits : readUInt16LE (((encodeWavBytes pcm sampleRate channels).drop 20).take 16) 14 =
        16 := by
      rw [hbuf]; rfl
    have hdc : ((encodeWavBytes pcm sampleRate channels).drop 44).take (pcm.length * 2) =
        pcm.flatMap encodeSample := by
      rw [hbuf]
      show (pcm.flatMap encodeSample).take (pcm.length * 2) = pcm.flatMap encodeSample
      exact List.take_of_length_le (by rw [flatMap_encodeSample_length]; omega)
    unfold decodeWav
    rw [if_neg (by rw [h1]; exact fun h => h rfl),
      if_neg (by rw [h2]; exact fun h => h rfl),
      chunkScan_encodeWav pcm sampleRate channels hne hlen]
    dsimp only
    rw [hdc, haf, hchv, hsrv, hbits, flatMap_encodeSample_length,
      Nat.mul_div_cancel_left pcm.length (by norm_num : 0 < 2)]
    rw [if_neg (by norm_num), if_pos rfl]
    refine congrArg some ?_
    refine congrArg _ ?_
    apply List.map_congr_left
    intro i hi'
    have hi := List.mem_range.mp hi'
    have hred : readInt16LE (pcm.flatMap encodeSample) (i * 2) =
        readInt16LE (encodeSample (pcm.getD i 0)) 0 := by
      unfold readInt16LE readUInt16LE
      rw [(flatMap_encodeSample_getD pcm i hi).1, (flatMap_encodeSample_getD pcm i hi).2]
    have hcm := clamp_mem (pcm.getD i 0)
    have hrange := jsRound_sample_range _ hcm.1 hcm.2
    rw [hred,
      show encodeSample (pcm.getD i 0) =
        int16Bytes (jsRound (max (-1) (min 1 (pcm.getD i 0)) * 32767)) from rfl,
      int16_roundtrip _ hrange.1 hrange.2]
  · intro i hi
    have hx : |pcm.getD i 0| ≤ 1 := by
      apply hin
      rw [List.getD_eq_getElem _ _ hi]
      exact List.getElem_mem _
    have hx1 := abs_le.mp hx
    have hcl : max (-1) (min 1 (pcm.getD i 0)) = pcm.getD i 0 := by
      rw [min_eq_right hx1.2, max_eq_right hx1.1]
    rw [hcl]
    set x := pcm.getD i 0 with hxdef
    have hfl := Int.floor_le (x * 32767 + 1 / 2)
    have hfg := Int.sub_one_lt_floor (x * 32767 + 1 / 2)
    unfold jsRound
    rw [abs_le]
    constructor
    · linarith
    · linarith

/-- C9 counterexample: (1) on the empty PCM buffer every header write is in
range, so `encodeWav` returns a buffer, but the scan never reaches the
`data` chunk header (`offset < length - 8` fails at 36), so decoding the
encoder's own output throws ("missing fmt or data chunk") instead of
round-tripping the rate and channel count; (2) quantization error can
exceed `1/32768`: for the sample `x = 2000049/3276700 ≈ 0.61038`,
`x·32767 = 20000.49` rounds down to 20000, and the decoded value
`20000/32768 = 625/1024` differs from `x` by ≈ `1.1/32768 > 1/32768`;
(3) at 40000 channels the block-align write `writeUInt16LE(80000, 32)` is
out of range, so `encodeWav` throws rather than producing a buffer at
all. -/
theorem C9_wav_roundtrip_counterexample :
    (encodeWav [] 44100 2 = some (encodeWavBytes [] 44100 2) ∧
        decodeWav (encodeWavBytes [] 44100 2) = none) ∧
      (|(2000049 : ℚ) / 3276700| ≤ 1 ∧
        encodeWav [2000049 / 3276700] 44100 2 =
          some (encodeWavBytes [2000049 / 3276700] 44100 2) ∧
        decodeWav (encodeWavBytes [2000049 / 3276700] 44100 2) =
          some { sampleRate := 44100, channels := 2, bitsPerSample := 16,
                 data := [625 / 1024] } ∧
        ¬ (|(625 : ℚ) / 1024 - 2000049 / 3276700| ≤ 1 / 32768)) ∧
      encodeWav [2000049 / 3276700] 44100 40000 = none := by
  refine ⟨⟨?_, ?_⟩, ⟨by rw [abs_of_nonneg (by norm_num)]; norm_num, ?_, ?_, ?_⟩, ?_⟩
  · unfold encodeWav
    rw [if_pos (by decide)]
  · have henc : encodeWavBytes [] 44100 2 =
        [82, 73, 70, 70, 36, 0, 0, 0, 87, 65, 86, 69,
         102, 109, 116, 32, 16, 0, 0, 0, 1, 0, 2, 0, 68, 172, 0, 0, 16, 177, 2, 0, 4, 0, 16, 0,
         100, 97, 116, 97, 0, 0, 0, 0] := by
      norm_num [encodeWavBytes, riffTag, waveTag, fmtTag, dataTag, u16Bytes, u32Bytes]
    rw [henc]
    unfold decodeWav
    rw [show chunkScan
        [82, 73, 70, 70, 36, 0, 0, 0, 87, 65, 86, 69,
         102, 109, 116, 32, 16, 0, 0, 0, 1, 0, 2, 0, 68, 172, 0, 0, 16, 177, 2, 0, 4, 0, 16, 0,
         100, 97, 116, 97, 0, 0, 0, 0]
        (([82, 73, 70, 70, 36, 0, 0, 0, 87, 65, 86, 69,
           102, 109, 116, 32, 16, 0, 0, 0, 1, 0, 2, 0, 68, 172, 0, 0, 16, 177, 2, 0, 4, 0,
           16, 0, 100, 97, 116, 97, 0, 0, 0, 0] : List ℕ).length) 12 none none =
        (some (20, 16), none) by decide]
    norm_num
  · unfold encodeWav
    rw [if_pos (by decide)]
  · have henc : encodeWavBytes [2000049 / 3276700] 44100 2 =
        [82, 73, 70, 70, 38, 0, 0, 0, 87, 65, 86, 69,
         102, 109, 116, 32, 16, 0, 0, 0, 1, 0, 2, 0, 68, 172, 0, 0, 16, 177, 2, 0, 4, 0, 16, 0,
         100, 97, 116, 97, 2, 0, 0, 0, 32, 78] := by
      norm_num [encodeWavBytes, encodeSample, riffTag, waveTag, fmtTag, dataTag, u16Bytes,
        u32Bytes, int16Bytes, jsRound]
      decide
    rw [henc]
    unfold decodeWav
    rw [show chunkScan
        [82, 73, 70, 70, 38, 0, 0, 0, 87, 65, 86, 69,
         102, 109, 116, 32, 16, 0, 0, 0, 1, 0, 2, 0, 68, 172, 0, 0, 16, 177, 2, 0, 4, 0, 16, 0,
         100, 97, 116, 97, 2, 0, 0, 0, 32, 78]
        (([82, 73, 70, 70, 38, 0, 0, 0, 87, 65, 86, 69,
           102, 109, 116, 32, 16, 0, 0, 0, 1, 0, 2, 0, 68, 172, 0, 0, 16, 177, 2, 0, 4, 0,
           16, 0, 100, 97, 116, 97, 2, 0, 0, 0, 32, 78] : List ℕ).length) 12 none none =
        (some (20, 16), some (44, 2)) by decide]
    norm_num [riffTag, waveTag, readUInt16LE, readUInt32LE, readInt16LE, List.range_succ]
  · rw [abs_of_neg (by norm_num)]
    norm_num
  · unfold encodeWav
    rw [if_neg (by decide)]

/-- Witness for the amended C9 at the one-sample buffer `[1/2]`, 44100 Hz,
two channels. -/
theorem C9_wav_roundtrip_amended_witness :
    (([(1 : ℚ) / 2] ≠ []) ∧ (44100 : ℕ) < 4294967296 ∧ (2 : ℕ) * 2 < 65536 ∧
        (44100 : ℕ) * 2 * 2 < 4294967296 ∧
        36 + 2 * ([(1 : ℚ) / 2]).length < 4294967296 ∧
        (∀ x ∈ [(1 : ℚ) / 2], |x| ≤ 1)) ∧
      (encodeWav [(1 : ℚ) / 2] 44100 2 = some (encodeWavBytes [(1 : ℚ) / 2] 44100 2) ∧
        decodeWav (encodeWavBytes [(1 : ℚ) / 2] 44100 2) =
          some { sampleRate := 44100, channels := 2, bitsPerSample := 16,
                 data := (List.range ([(1 : ℚ) / 2]).length).map fun i =>
                   ((jsRound (max (-1) (min 1 (([(1 : ℚ) / 2]).getD i 0)) * 32767) : ℤ) : ℚ) /
                     32768 } ∧
        ∀ i : ℕ, i < ([(1 : ℚ) / 2]).length →
          |((jsRound (max (-1) (min 1 (([(1 : ℚ) / 2]).getD i 0)) * 32767) : ℤ) : ℚ) / 32768 -
              ([(1 : ℚ) / 2]).getD i 0| ≤ 3 / 65536) :=
  ⟨⟨by simp, by norm_num, by norm_num, by norm_num, by norm_num,
      by intro x hx; simp only [List.mem_singleton] at hx; subst hx; norm_num [abs]⟩,
    C9_wav_roundtrip_amended [(1 : ℚ) / 2] 44100 2 (by simp) (by norm_num) (by norm_num)
      (by norm_num) (by norm_num)
      (by intro x hx; simp only [List.mem_singleton] at hx; subst hx; norm_num [abs])⟩

/-! ## C10: `reset` semantics of `BasePlugin` and `VocalChain` -/

/-- `setParameter` never touches the descriptor table. -/
theorem setParameter_descriptors (p : PluginState) (n : String) (v : ℚ) :
    (setParameter p n v).descriptors = p.descriptors := by
  unfold setParameter
  split <;> rfl

/-- Looking up the key just stored by `Map.set` (replace branch). -/
theorem find?_map_set_self (k : String) (v : ℚ) (l : List (String × ℚ))
    (h : (l.any fun p => p.1 = k) = true) :
    List.find? (fun q => q.1 = k) (l.map fun p => if p.1 = k then (k, v) else p) =
      some (k, v) := by
  induction l with
  | nil => simp at h
  | cons a t ih =>
    simp only [List.any_cons, Bool.or_eq_true, decide_eq_true_eq] at h
    simp only [List.map_cons]
    by_cases ha : a.1 = k
    · rw [if_pos ha]
      exact List.find?_cons_of_pos _ (by simp)
    · rw [if_neg ha, List.find?_cons_of_neg _ (by simp [ha])]
      exact ih (h.resolve_left ha)

/-- Looking up the key just stored by `Map.set` (append branch). -/
theorem find?_append_single_self (k : String) (v : ℚ) (l : List (String × ℚ))
    (h : (l.any fun p => p.1 = k) = false) :
    List.find? (fun q => q.1 = k) (l ++ [(k, v)]) = some (k, v) := by
  induction l with
  | nil => simp
  | cons a t ih =>
    simp only [List.any_cons, Bool.or_eq_false_iff, decide_eq_false_iff_not] at h
    rw [List.cons_append, List.find?_cons_of_neg _ (by simp [h.1])]
    exact ih (by simp [h.2])

/-- Looking up the key just stored by `Map.set`. -/
theorem find?_assocSet_self (l : List (String × ℚ)) (k : String) (v : ℚ) :
    List.find? (fun q => q.1 = k) (assocSet l k v) = some (k, v) := by
  unfold assocSet
  split
  · next h => exact find?_map_set_self k v l h
  · next h => exact find?_append_single_self k v l (Bool.eq_false_iff.mpr h)

/-- `Map.set` at a different key leaves other lookups alone (replace
branch). -/
theorem find?_map_set_ne (k kk : String) (v : ℚ) (hk : kk ≠ k) (l : List (String × ℚ)) :
    List.find? (fun q => q.1 = kk) (l.map fun p => if p.1 = k then (k, v) else p) =
      List.find? (fun q => q.1 = kk) l := by
  induction l with
  | nil => rfl
  | cons a t ih =>
    simp only [List.map_cons]
    by_cases ha : a.1 = k
    · rw [if_pos ha, List.find?_cons_of_neg _ (by simp [Ne.symm hk]),
        List.find?_cons_of_neg _ (by simp [ha, Ne.symm hk])]
      exact ih
    · rw [if_neg ha]
      by_cases ha2 : a.1 = kk
      · rw [List.find?_cons_of_pos _ (by simp [ha2]), List.find?_cons_of_pos _ (by simp [ha2])]
      · rw [List.find?_cons_of_neg _ (by simp [ha2]), List.find?_cons_of_neg _ (by simp [ha2])]
        exact ih

/-- `Map.set` at a different key leaves other lookups alone (append
branch). -/
theorem find?_append_single_ne (k kk : String) (v : ℚ) (hk : kk ≠ k) (l : List (String × ℚ)) :
    List.find? (fun q => q.1 = kk) (l ++ [(k, v)]) = List.find? (fun q => q.1 = kk) l := by
  induction l with
  | nil => simp [List.find?, Ne.symm hk]
  | cons a t ih =>
    by_cases ha : a.1 = kk
    · rw [List.cons_append, List.find?_cons_of_pos _ (by simp [ha]),
        List.find?_cons_of_pos _ (by simp [ha])]
    · rw [List.cons_append, List.find?_cons_of_neg _ (by simp [ha]),
        List.find?_cons_of_neg _ (by simp [ha])]
      exact ih

/-- `Map.set` at a different key leaves other lookups alone. -/
theorem find?_assocSet_ne (l : List (String × ℚ)) (k kk : String) (v : ℚ) (hk : kk ≠ k) :
    List.find? (fun q => q.1 = kk) (assocSet l k v) =
      List.find? (fun q => q.1 = kk) l := by
  unfold assocSet
  split
  · exact find?_map_set_ne k kk v hk l
  · exact find?_append_single_ne k kk v hk l

/-- `getParameter` right after `setParameter` of the same registered name
returns the clamped value. -/
theorem getParameter_setParameter_self (p : PluginState) (n : String) (v : ℚ) (d : ParamDesc)
    (hfind : (p.descriptors.find? fun e => e.name = n) = some d) :
    getParameter (setParameter p n v) n = max d.minV (min d.maxV v) := by
  unfold setParameter getParameter
  simp only [hfind, find?_assocSet_self]

/-- `setParameter` does not disturb `getParameter` at any other name. -/
theorem getParameter_setParameter_ne (p : PluginState) (n nn : String) (v : ℚ) (h : nn ≠ n) :
    getParameter (setParameter p n v) nn = getParameter p nn := by
  unfold setParameter getParameter
  rcases hf : p.descriptors.find? fun e => e.name = n with _ | d
  · simp only [hf]
  · simp only [hf, find?_assocSet_ne p.params n nn _ h]

/-- Folding default-restoring `setParameter`s over names all different from
`n` does not disturb `getParameter` at `n`. -/
theorem getParameter_foldl_ne (ds : List ParamDesc) (n : String)
    (h : ∀ d ∈ ds, d.name ≠ n) (q : PluginState) :
    getParameter (ds.foldl (fun r e => setParameter r e.name e.defaultV) q) n =
      getParameter q n := by
  induction ds generalizing q with
  | nil => rfl
  | cons a t ih =>
    rw [List.foldl_cons, ih (fun d hd => h d (List.mem_cons_of_mem a hd))]
    exact getParameter_setParameter_ne q a.name n a.defaultV
      (Ne.symm (h a (List.mem_cons_self a t)))

/-- The `reset` fold never touches the descriptor table. -/
theorem foldl_setDefaults_descriptors (ds : List ParamDesc) (q : PluginState) :
    (ds.foldl (fun r e => setParameter r e.name e.defaultV) q).descriptors =
      q.descriptors := by
  induction ds generalizing q with
  | nil => rfl
  | cons a t ih => rw [List.foldl_cons, ih, setParameter_descriptors]

/-- In a descriptor table with pairwise-distinct names, `find?` at the name
of a member returns exactly that member. -/
theorem find?_name_of_nodup (D : List ParamDesc) (hn : (D.map fun e => e.name).Nodup)
    (d : ParamDesc) (hd : d ∈ D) :
    (D.find? fun e => e.name = d.name) = some d := by
  induction D with
  | nil => simp at hd
  | cons a t ih =>
    rw [List.map_cons, List.nodup_cons] at hn
    rcases List.mem_cons.mp hd with rfl | hdt
    · exact List.find?_cons_of_pos _ (by simp)
    · have hne : a.name ≠ d.name := by
        intro he
        exact hn.1 (he ▸ List.mem_map_of_mem _ hdt)
      rw [List.find?_cons_of_neg _ (by simp [hne])]
      exact ih hn.2 hdt

/-- Folding default-restoring `setParameter`s over a duplicate-free batch of
registered in-range descriptors leaves every parameter of the batch at its
default. -/
theorem getParameter_foldl_setDefaults (D : List ParamDesc)
    (hnD : (D.map fun e => e.name).Nodup)
    (hr : ∀ e ∈ D, e.minV ≤ e.defaultV ∧ e.defaultV ≤ e.maxV)
    (ds : List ParamDesc) :
    ∀ q : PluginState, q.descriptors = D → (∀ e ∈ ds, e ∈ D) →
      (ds.map fun e => e.name).Nodup →
      ∀ d ∈ ds,
        getParameter (ds.foldl (fun r e => setParameter r e.name e.defaultV) q) d.name =
          d.defaultV := by
  induction ds with
  | nil =>
    intro q _ _ _ d hd
    simp at hd
  | cons a t ih =>
    intro q hq hsub hnd d hd
    rw [List.map_cons, List.nodup_cons] at hnd
    rw [List.foldl_cons]
    rcases List.mem_cons.mp hd with rfl | hdt
    · have hnames : ∀ e ∈ t, e.name ≠ d.name := by
        intro e he hee
        exact hnd.1 (hee ▸ List.mem_map_of_mem _ he)
      rw [getParameter_foldl_ne t d.name hnames _]
      have hfind : (q.descriptors.find? fun e => e.name = d.name) = some d := by
        rw [hq]
        exact find?_name_of_nodup D hnD d (hsub d (List.mem_cons_self d t))
      rw [getParameter_setParameter_self q d.name d.defaultV d hfind]
      obtain ⟨h1, h2⟩ := hr d (hsub d (List.mem_cons_self d t))
      rw [min_eq_right h2, max_eq_right h1]
    · exact ih (setParameter q a.name a.defaultV)
        (by rw [setParameter_descriptors]; exact hq)
        (fun e he => hsub e (List.mem_cons_of_mem a he)) hnd.2 d hdt

/-- `BasePlugin.reset` never touches the descriptor table. -/
theorem resetPlugin_descriptors (p : PluginState) :
    (resetPlugin p).descriptors = p.descriptors :=
  foldl_setDefaults_descriptors p.descriptors p

/-- After `BasePlugin.reset`, every registered parameter of a well-formed
plugin reads back as its descriptor default. -/
theorem getParameter_resetPlugin (p : PluginState) (hwf : WellFormedDescs p)
    (d : ParamDesc) (hd : d ∈ p.descriptors) :
    getParameter (resetPlugin p) d.name = d.defaultV := by
  obtain ⟨hn, hr⟩ := hwf
  exact getParameter_foldl_setDefaults p.descriptors hn hr p.descriptors p rfl
    (fun _ he => he) hn d hd

/-- `configureBands` never touches the descriptor table. -/
theorem configureBands_descriptors (p : PluginState) (bands : List EQBand) :
    (configureBands p bands).descriptors = p.descriptors := by
  unfold configureBands
  generalize List.range (min bands.length 6) = l
  induction l generalizing p with
  | nil => rfl
  | cons i t ih =>
    rw [List.foldl_cons, ih]
    simp [setParameter_descriptors]

/-- C10 counterexample: `VocalChain.reset()` (lines 290–300) resets only
the nine stage plugins; the chain-level sends set by
`configureFromParameters` survive it.  Configuring a fresh chain with a
reverb wet level of 50 sets `reverbSendLevel = 0.5`; after `reset()` it is
still `0.5`, not the constructor default `0.2`, so the previously
configured `ChainParameters` are NOT fully discarded. -/
theorem C10_reset_counterexample :
    (chainReset (configureFromParameters floatOpsOne pristineChain chainParamsCx)).reverbSendLevel
        = 1 / 2 ∧
      pristineChain.reverbSendLevel = 1 / 5 ∧ ((1 : ℚ) / 2) ≠ 1 / 5 := by
  refine ⟨?_, rfl, by norm_num⟩
  norm_num [chainReset, configureFromParameters, chainParamsCx]

/-- C10 amended: after `VocalChain.reset()` following
`configureFromParameters`, every stage plugin has bypass cleared and every
registered parameter back at its descriptor default (given the well-formed
descriptor tables every plugin in the repository registers) — but the
chain-level `inputGain`, `reverbSendLevel` and `delaySendLevel` written by
`configureFromParameters` persist, so the configured `ChainParameters` are
only partially discarded, contrary to the claim. -/
theorem C10_reset_amended (F : FloatOps) (ch : VocalChain) (ps : ChainParameters)
    (hwf : ∀ q ∈ chainPlugins ch, WellFormedDescs q) :
    (∀ q ∈ chainPlugins (chainReset (configureFromParameters F ch ps)),
        q.bypass = false ∧ ∀ d ∈ q.descriptors, getParameter q d.name = d.defaultV) ∧
      (chainReset (configureFromParameters F ch ps)).inputGain
          = F.pow10 (ps.gainStaging.inputGain / 20) ∧
      (chainReset (configureFromParameters F ch ps)).reverbSendLevel
          = ps.reverb.wetLevel / 100 ∧
      (chainReset (configureFromParameters F ch ps)).delaySendLevel
          = if ps.delay.enabled then ps.delay.wetLevel / 100 else 0 := by
  have w1 : WellFormedDescs ch.subtractiveEQ := hwf _ (by simp [chainPlugins])
  have w2 : WellFormedDescs ch.deEsser := hwf _ (by simp [chainPlugins])
  have w3 : WellFormedDescs ch.compressorA := hwf _ (by simp [chainPlugins])
  have w4 : WellFormedDescs ch.compressorB := hwf _ (by simp [chainPlugins])
  have w5 : WellFormedDescs ch.autoTune := hwf _ (by simp [chainPlugins])
  have w6 : WellFormedDescs ch.additiveEQ := hwf _ (by simp [chainPlugins])
  have w7 : WellFormedDescs ch.saturation := hwf _ (by simp [chainPlugins])
  have w8 : WellFormedDescs ch.reverb := hwf _ (by simp [chainPlugins])
  have w9 : WellFormedDescs ch.delay := hwf _ (by simp [chainPlugins])
  have e1 : (configureFromParameters F ch ps).subtractiveEQ.descriptors
      = ch.subtractiveEQ.descriptors := by
    simp [configureFromParameters, configureBands_descriptors, setParameter_descriptors]
  have e2 : (configureFromParameters F ch ps).deEsser.descriptors = ch.deEsser.descriptors := by
    simp [configureFromParameters, setParameter_descriptors]
  have e3 : (configureFromParameters F ch ps).compressorA.descriptors
      = ch.compressorA.descriptors := by
    simp [configureFromParameters, setParameter_descriptors]
  have e4 : (configureFromParameters F ch ps).compressorB.descriptors
      = ch.compressorB.descriptors := by
    simp [configureFromParameters, setParameter_descriptors]
  have e5 : (configureFromParameters F ch ps).autoTune.descriptors
      = ch.autoTune.descriptors := by
    simp [configureFromParameters, setKeyAndScale, setParameter_descriptors]
  have e6 : (configureFromParameters F ch ps).additiveEQ.descriptors
      = ch.additiveEQ.descriptors := by
    simp [configureFromParameters, setParameter_descriptors]
  have e7 : (configureFromParameters F ch ps).saturation.descriptors
      = ch.saturation.descriptors := by
    simp [configureFromParameters, setParameter_descriptors]
  have e8 : (configureFromParameters F ch ps).reverb.descriptors = ch.reverb.descriptors := by
    simp [configureFromParameters, setParameter_descriptors]
  have e9 : (configureFromParameters F ch ps).delay.descriptors = ch.delay.descriptors := by
    by_cases hde : ps.delay.enabled
    · simp [configureFromParameters, hde, setParameter_descriptors]
    · simp [configureFromParameters, hde]
  have t1 : WellFormedDescs (configureFromParameters F ch ps).subtractiveEQ := by
    unfold WellFormedDescs
    rw [e1]
    exact w1
  have t2 : WellFormedDescs (configureFromParameters F ch ps).deEsser := by
    unfold WellFormedDescs
    rw [e2]
    exact w2
  have t3 : WellFormedDescs (configureFromParameters F ch ps).compressorA := by
    unfold WellFormedDescs
    rw [e3]
    exact w3
  have t4 : WellFormedDescs (configureFromParameters F ch ps).compressorB := by
    unfold WellFormedDescs
    rw [e4]
    exact w4
  have t5 : WellFormedDescs (configureFromParameters F ch ps).autoTune := by
    unfold WellFormedDescs
    rw [e5]
    exact w5
  have t6 : WellFormedDescs (configureFromParameters F ch ps).additiveEQ := by
    unfold WellFormedDescs
    rw [e6]
    exact w6
  have t7 : WellFormedDescs (configureFromParameters F ch ps).saturation := by
    unfold WellFormedDescs
    rw [e7]
    exact w7
  have t8 : WellFormedDescs (configureFromParameters F ch ps).reverb := by
    unfold WellFormedDescs
    rw [e8]
    exact w8
  have t9 : WellFormedDescs (configureFromParameters F ch ps).delay := by
    unfold WellFormedDescs
    rw [e9]
    exact w9
  refine ⟨?_, rfl, rfl, rfl⟩
  intro q hq
  simp only [chainPlugins, chainReset, List.mem_cons, List.not_mem_nil, or_false] at hq
  rcases hq with rfl | rfl | rfl | rfl | rfl | rfl | rfl | rfl | rfl
  · exact ⟨rfl, fun d hd =>
      getParameter_resetPlugin _ t1 d (by rwa [resetPlugin_descriptors] at hd)⟩
  · exact ⟨rfl, fun d hd =>
      getParameter_resetPlugin _ t2 d (by rwa [resetPlugin_descriptors] at hd)⟩
  · exact ⟨rfl, fun d hd =>
      getParameter_resetPlugin _ t3 d (by rwa [resetPlugin_descriptors] at hd)⟩
  · exact ⟨rfl, fun d hd =>
      getParameter_resetPlugin _ t4 d (by rwa [resetPlugin_descriptors] at hd)⟩
  · exact ⟨rfl, fun d hd =>
      getParameter_resetPlugin _ t5 d (by rwa [resetPlugin_descriptors] at hd)⟩
  · exact ⟨rfl, fun d hd =>
      getParameter_resetPlugin _ t6 d (by rwa [resetPlugin_descriptors] at hd)⟩
  · exact ⟨rfl, fun d hd =>
      getParameter_resetPlugin _ t7 d (by rwa [resetPlugin_descriptors] at hd)⟩
  · exact ⟨rfl, fun d hd =>
      getParameter_resetPlugin _ t8 d (by rwa [resetPlugin_descriptors] at hd)⟩
  · exact ⟨rfl, fun d hd =>
      getParameter_resetPlugin _ t9 d (by rwa [resetPlugin_descriptors] at hd)⟩

/-- Witness for the amended C10 on a fresh chain (with the sample
descriptor table) configured by the concrete parameter record. -/
theorem C10_reset_amended_witness :
    (∀ q ∈ chainPlugins pristineChain, WellFormedDescs q) ∧
      ((∀ q ∈ chainPlugins (chainReset
            (configureFromParameters floatOpsOne pristineChain chainParamsCx)),
          q.bypass = false ∧ ∀ d ∈ q.descriptors, getParameter q d.name = d.defaultV) ∧
        (chainReset (configureFromParameters floatOpsOne pristineChain
            chainParamsCx)).inputGain
            = floatOpsOne.pow10 (chainParamsCx.gainStaging.inputGain / 20) ∧
        (chainReset (configureFromParameters floatOpsOne pristineChain
            chainParamsCx)).reverbSendLevel
            = chainParamsCx.reverb.wetLevel / 100 ∧
        (chainReset (configureFromParameters floatOpsOne pristineChain
            chainParamsCx)).delaySendLevel
            = if chainParamsCx.delay.enabled then chainParamsCx.delay.wetLevel / 100
              else 0) := by
  have hwf : ∀ q ∈ chainPlugins pristineChain, WellFormedDescs q := by
    intro q hq
    simp only [chainPlugins, pristineChain, List.mem_cons, List.not_mem_nil, or_false] at hq
    rcases hq with rfl | rfl | rfl | rfl | rfl | rfl | rfl | rfl | rfl
    · refine ⟨by decide, ?_⟩
      intro d hd
      simp only [sampleDescs, List.mem_cons, List.not_mem_nil, or_false] at hd
      rcases hd with rfl | rfl <;> norm_num
    all_goals exact ⟨by simp, by simp⟩
  exact ⟨hwf, C10_reset_amended floatOpsOne pristineChain chainParamsCx hwf⟩

end AudioEngine
